import Mathlib

/-!
# Pegasus: the kickstart process-tree tracer and the message discriminators

A shallow embedding of `src/tools/pegasus-kickstart/procinfo.c` and of the
`MessageType` enumeration of `protocol.h`.

Modelling conventions.

* The doubly linked list of `ProcInfo` nodes is a `List ProcInfo` in list
  order (`*list` is the head, `next` the tail); a `ProcInfo *` into the list
  is the index of the node.
* C `int`/`pid_t` values are `Int`, the `uint64_t` counters are `Nat`.
* C `double` values (`start`, `stop`, `utime`, `stime`) are the exact
  rationals the C expression denotes; rounding is not modelled.  Rounding to
  nearest is monotone, so an order `a ≤ b` between two exact values carries
  over to the rounded ones.
* Everything the operating system answers during one iteration of the event
  loop (the result of `wait4`, of `calloc`, of `gettimeofday`, of `ptrace`,
  the contents of the `/proc` files) is an input, gathered in `WaitEvent`.
  A run of the loop is the loop applied to a list of such answers; when the
  list is used up the function is still blocked in `wait4`.
* What the tracer does to its surroundings is recorded in three histories
  kept next to the C memory: the `ptrace` requests issued (`calls`), the pids
  whose `stop` has been stamped (`stop_set`) and the clock readings taken
  (`clock`).  The program never reads them.
* The wait-status macros and the signal, `errno` and `ptrace` constants are
  those of Linux on x86.
-/

namespace Pegasus

/-! ## protocol.h -/

/-- The enumeration `MessageType` of `protocol.h`. -/
inductive MessageType where
  | COMMAND
  | RESULT
  | SHUTDOWN
  | REGISTRATION
  | HOSTRANK
  | IODATA
deriving DecidableEq, Repr

/-- The enumerator values as written in `enum MessageType`. -/
def MessageType.value : MessageType → Int
  | .COMMAND      => 1
  | .RESULT       => 2
  | .SHUTDOWN     => 3
  | .REGISTRATION => 4
  | .HOSTRANK     => 5
  | .IODATA       => 6

/-! ## System constants and macros (Linux, `<errno.h>`, `<signal.h>`, `<sys/wait.h>`, `<sys/ptrace.h>`) -/

def EINTR : Int := 4
def ECHILD : Int := 10
def SIGTRAP : Int := 5
def SIGSTOP : Int := 19
def SIGTSTP : Int := 20
def PTRACE_EVENT_EXIT : Int := 6
def PTRACE_O_TRACEFORK : Nat := 0x02
def PTRACE_O_TRACEVFORK : Nat := 0x04
def PTRACE_O_TRACECLONE : Nat := 0x08
def PTRACE_O_TRACEEXIT : Nat := 0x40

/-- The macro `WIFEXITED(status)`: `(status & 0x7f) == 0`. -/
def WIFEXITED (status : Int) : Bool := status % 128 == 0

/-- The macro `WIFSTOPPED(status)`: `(status & 0xff) == 0x7f`. -/
def WIFSTOPPED (status : Int) : Bool := status % 256 == 127

/-- The macro `WSTOPSIG(status)`: `(status & 0xff00) >> 8`. -/
def WSTOPSIG (status : Int) : Int := (status / 256) % 256

/-- The value an `int` object holds after an integer `z` is stored into it:
`z` reduced modulo `2^32` into the signed range. -/
def wrap_int (z : Int) : Int :=
  let m : Int := z % 4294967296
  if m < 2147483648 then m else m - 4294967296

/-- The conversion of an `unsigned long` to `int`, as done by
`*main_status = event_status`. -/
def int_of_ulong (w : Nat) : Int := wrap_int (w : Int)

/-! ## The record store -/

/-- Modelled from the spec: the `ProcInfo` structure is declared in
`procinfo.h`, which is missing; the fields are those of the spec's record
table (section 3.2) and of the uses in `procinfo.c`.  The `next` and `prev`
links are the list structure itself. -/
structure ProcInfo where
  pid : Int
  ppid : Int
  tgid : Int
  exe : Option String
  start : ℚ
  stop : ℚ
  utime : ℚ
  stime : ℚ
  vmpeak : Int
  rsspeak : Int
  rchar : Nat
  wchar : Nat
  syscr : Nat
  syscw : Nat
  read_bytes : Nat
  write_bytes : Nat
  cancelled_write_bytes : Nat
deriving DecidableEq, Repr

/-- Find ProcInfo in a list by pid: the position of the first node whose
`pid` is the one asked for, `none` for `NULL`. -/
def proc_lookup : List ProcInfo → Int → Option Nat
  | [], _ => none
  | cur :: next, pid =>
    if cur.pid = pid then some 0
    else match proc_lookup next pid with
      | some i => some (i + 1)
      | none => none

/-- Create a ProcInfo object: `calloc` gives zeroed memory or fails. -/
def initProcInfo (callocOk : Bool) : Option ProcInfo :=
  if callocOk then
    some { pid := 0, ppid := 0, tgid := 0, exe := none, start := 0, stop := 0,
           utime := 0, stime := 0, vmpeak := 0, rsspeak := 0, rchar := 0,
           wchar := 0, syscr := 0, syscw := 0, read_bytes := 0,
           write_bytes := 0, cancelled_write_bytes := 0 }
  else none

/-- The walk `for (cur = *list; cur->next != NULL; cur = cur->next);` of
`proc_add` on a non-empty list followed by `cur->next = new`. -/
def link_last : ProcInfo → List ProcInfo → ProcInfo → List ProcInfo
  | cur, [], new => [cur, new]
  | cur, nxt :: rest, new => cur :: link_last nxt rest new

/-- Add a new ProcInfo object to the list.  The result is the new list and
the position of the new node, `none` when `initProcInfo` returned `NULL`. -/
def proc_add (list : List ProcInfo) (pid : Int) (callocOk : Bool) :
    Option (List ProcInfo × Nat) :=
  match initProcInfo callocOk with
  | none => none
  | some new0 =>
    let new := { new0 with pid := pid }
    match list with
    | [] => some ([new], 0)
    | cur :: rest => some (link_last cur rest new, list.length)

/-- A write through a `ProcInfo *`: the node at position `i` becomes `f` of it. -/
def update_at : List ProcInfo → Nat → (ProcInfo → ProcInfo) → List ProcInfo
  | [], _, _ => []
  | c :: rest, 0, f => f c :: rest
  | c :: rest, i + 1, f => c :: update_at rest i f

/-- The fields of a `struct timeval`. -/
structure Timeval where
  tv_sec : Int
  tv_usec : Int
deriving DecidableEq, Repr

/-- Get the current time in seconds since the epoch, from what
`gettimeofday` stored. -/
def get_time (tv : Timeval) : ℚ := (tv.tv_sec : ℚ) + (tv.tv_usec : ℚ) / 1000000

/-! ## The `/proc` harvesters

What the file system answers is an input: the result of `readlink`, and for
each of the three text files the result of `access`, of `fopen`, the lines
`fgets` delivers, the error indicator of the stream and the result of
`fclose`.  `sprintf` of a path never returns a negative value, so the
`sprintf` failure branches are not reachable and are left out. -/

/-- The character class `isspace` of the C locale. -/
def isspace (c : Char) : Bool :=
  c.toNat == 32 || (9 ≤ c.toNat && c.toNat ≤ 13)

/-- Input white space is skipped before a numeric conversion. -/
def skip_space : List Char → List Char
  | [] => []
  | c :: cs => if isspace c then skip_space cs else c :: cs

/-- The ordinary characters of a `scanf` format must match the input one by
one; the result is the input that is left. -/
def match_literal : List Char → List Char → Option (List Char)
  | [], inp => some inp
  | _ :: _, [] => none
  | f :: fs, c :: cs => if f = c then match_literal fs cs else none

/-- The value of the leading decimal digits of the input. -/
def digits_value : List Char → Nat → Nat
  | [], acc => acc
  | c :: cs, acc =>
    if c.isDigit then digits_value cs (acc * 10 + (c.toNat - 48)) else acc

/-- A decimal conversion: white space, an optional sign, at least one digit.
`none` when the input does not match (nothing is then assigned). -/
def scan_decimal (inp : List Char) : Option Int :=
  match skip_space inp with
  | [] => none
  | c :: cs =>
    if c = '-' then
      match cs with
      | d :: _ => if d.isDigit then some (-(digits_value cs 0 : Int)) else none
      | [] => none
    else if c = '+' then
      match cs with
      | d :: _ => if d.isDigit then some (digits_value cs 0 : Int) else none
      | [] => none
    else if c.isDigit then some (digits_value (c :: cs) 0 : Int)
    else none

/-- The result of `strtol` on digits whose value is `v`: `v` itself, or
`LONG_MAX` / `LONG_MIN` when `v` does not fit a 64-bit `long`. -/
def strtol_value (v : Int) : Int :=
  if v > 9223372036854775807 then 9223372036854775807
  else if v < -9223372036854775808 then -9223372036854775808
  else v

/-- The result of `strtoul` on digits whose signed value is `v`:
`ULONG_MAX` when the magnitude does not fit 64 bits, else the magnitude,
negated modulo `2^64` after a minus sign. -/
def strtoul_value (v : Int) : Nat :=
  if v.natAbs > 18446744073709551615 then 18446744073709551615
  else if v < 0 then 18446744073709551616 - v.natAbs
  else v.natAbs

/-- The call `sscanf(line, "<lit>%d...", &x)`: the value stored in `x`, or
`none` when no assignment is made.  The digits are converted as by `strtol`
(saturating at the range of `long`) and the result is stored into the `int`. -/
def sscanf_d (line : String) (lit : String) : Option Int :=
  match match_literal lit.data line.data with
  | none => none
  | some rest =>
    match scan_decimal rest with
    | none => none
    | some v => some (wrap_int (strtol_value v))

/-- The call `sscanf(line, "<lit> %" SCNu64 "...", &x)`: the value stored in
the `uint64_t`, or `none` when no assignment is made.  The digits are
converted as by `strtoul` (saturating at `ULONG_MAX`). -/
def sscanf_u64 (line : String) (lit : String) : Option Nat :=
  match match_literal lit.data line.data with
  | none => none
  | some rest =>
    match scan_decimal rest with
    | none => none
    | some v => some (strtoul_value v)

/-- Return 1 if line begins with tok. -/
def startswith (line : String) (tok : String) : Bool :=
  tok.data.isPrefixOf line.data

/-- What `readlink` answers: its return value and the bytes it stored. -/
structure ExeLink where
  size : Int
  target : String
deriving DecidableEq, Repr

/-- What the C library answers for a line-oriented `/proc` file. -/
structure ProcFile where
  accessRet : Int
  fopenOk : Bool
  lines : List String
  ferror : Bool
  fcloseRet : Int
deriving DecidableEq, Repr

/-- What the C library answers for `/proc/[pid]/stat`: `utime` and `stime`
are the contents of the two locals after `fscanf` (whatever they hold when
the conversion did not succeed), `clocks` is `sysconf(_SC_CLK_TCK)`. -/
structure StatFile where
  accessRet : Int
  fopenOk : Bool
  utime : Nat
  stime : Nat
  clocks : Int
  ferror : Bool
  fcloseRet : Int
deriving DecidableEq, Repr

/-- Read /proc/[pid]/exe.  The result is the return value and the record.
`strdup` is taken to succeed. -/
def proc_read_exe (l : ExeLink) (item : ProcInfo) : Int × ProcInfo :=
  if l.size < 0 then (-1, item)
  else (l.size, { item with exe := some (l.target.take l.size.toNat) })

/-- The body of the `fgets` loop of `proc_read_meminfo` for one line. -/
def meminfo_line (item : ProcInfo) (line : String) : ProcInfo :=
  if startswith line "PPid" then
    match sscanf_d line "PPid:" with
    | some v => { item with ppid := v }
    | none => item
  else if startswith line "Tgid" then
    match sscanf_d line "Tgid:" with
    | some v => { item with tgid := v }
    | none => item
  else if startswith line "VmPeak" then
    match sscanf_d line "VmPeak:" with
    | some v => { item with vmpeak := v }
    | none => item
  else if startswith line "VmHWM" then
    match sscanf_d line "VmHWM:" with
    | some v => { item with rsspeak := v }
    | none => item
  else item

/-- Read /proc/[pid]/status to get memory usage. -/
def proc_read_meminfo (f : ProcFile) (item : ProcInfo) : Int × ProcInfo :=
  if f.accessRet < 0 then (0, item)
  else if !f.fopenOk then (-1, item)
  else
    let item1 := f.lines.foldl meminfo_line item
    if f.ferror then (-1, item1) else (f.fcloseRet, item1)

/-- Read /proc/[pid]/stat to get CPU usage.  The quotient is the exact one
(with `x / 0 = 0`); `sysconf(_SC_CLK_TCK)` is positive on every system. -/
def proc_read_statinfo (f : StatFile) (item : ProcInfo) : Int × ProcInfo :=
  if f.accessRet < 0 then (0, item)
  else if !f.fopenOk then (-1, item)
  else
    let item1 := { item with utime := (f.utime : ℚ) / (f.clocks : ℚ),
                             stime := (f.stime : ℚ) / (f.clocks : ℚ) }
    if f.ferror then (-1, item1) else (f.fcloseRet, item1)

/-- The body of the `fgets` loop of `proc_read_io` for one line. -/
def io_line (item : ProcInfo) (line : String) : ProcInfo :=
  if startswith line "rchar" then
    match sscanf_u64 line "rchar:" with
    | some v => { item with rchar := v }
    | none => item
  else if startswith line "wchar" then
    match sscanf_u64 line "wchar:" with
    | some v => { item with wchar := v }
    | none => item
  else if startswith line "syscr" then
    match sscanf_u64 line "syscr:" with
    | some v => { item with syscr := v }
    | none => item
  else if startswith line "syscw" then
    match sscanf_u64 line "syscw:" with
    | some v => { item with syscw := v }
    | none => item
  else if startswith line "read_bytes" then
    match sscanf_u64 line "read_bytes:" with
    | some v => { item with read_bytes := v }
    | none => item
  else if startswith line "write_bytes" then
    match sscanf_u64 line "write_bytes:" with
    | some v => { item with write_bytes := v }
    | none => item
  else if startswith line "cancelled_write_bytes" then
    match sscanf_u64 line "cancelled_write_bytes:" with
    | some v => { item with cancelled_write_bytes := v }
    | none => item
  else item

/-- Read /proc/[pid]/io to get I/O usage. -/
def proc_read_io (f : ProcFile) (item : ProcInfo) : Int × ProcInfo :=
  if f.accessRet < 0 then (0, item)
  else if !f.fopenOk then (-1, item)
  else
    let item1 := f.lines.foldl io_line item
    if f.ferror then (-1, item1) else (f.fcloseRet, item1)

/-! ## The event loop of `procParentTrace`

Diagnostics written with `perror` are not modelled. -/

/-- A `struct rusage`, as the words it is made of. -/
structure Rusage where
  words : List Int
deriving DecidableEq, Repr

/-- A `ptrace` request issued by the tracer. -/
inductive PtraceCall where
  | setoptions (pid : Int) (options : Nat)
  | geteventmsg (pid : Int)
  | cont (pid : Int) (signal : Int)
deriving DecidableEq, Repr

/-- The memory `procParentTrace` works on: the list `*procs` and the two out
parameters `*main_status` and `*main_usage`; with it three histories that are
not part of the C memory: the `ptrace` requests issued so far, the pids for
which the assignment `child->stop = get_time()` has been executed so far, and
the values `get_time()` has returned so far (each oldest first). -/
structure TraceState where
  procs : List ProcInfo
  main_status : Int
  main_usage : Rusage
  calls : List PtraceCall
  stop_set : List Int
  clock : List ℚ
deriving DecidableEq, Repr

/-- Everything the system answers during one iteration of the event loop:
`wait4` (`cpid` its return value, `errno`, `status`, `usage`), `calloc`,
`gettimeofday` for `start`, `PTRACE_SETOPTIONS`, `gettimeofday` for `stop`,
the four `/proc` sources, `PTRACE_GETEVENTMSG` (return value and the word
stored) and `PTRACE_CONT`. -/
structure WaitEvent where
  cpid : Int
  errno : Int
  status : Int
  usage : Rusage
  callocOk : Bool
  startTv : Timeval
  setoptionsRet : Int
  stopTv : Timeval
  exeLink : ExeLink
  statusFile : ProcFile
  statFile : StatFile
  ioFile : ProcFile
  eventmsgRet : Int
  eventmsg : Nat
  contRet : Int
deriving DecidableEq, Repr

/-- How one iteration of `while (1)` ends: `again` when control reaches the
end of the body or a `continue`, `leave ret` when the function returns `ret`
(the `break` on `ECHILD` leads to `return 0`). -/
inductive Flow where
  | again (st : TraceState)
  | leave (ret : Int) (st : TraceState)
deriving DecidableEq, Repr

/-- The memory at the end of an iteration. -/
def Flow.state : Flow → TraceState
  | .again st => st
  | .leave _ st => st

/-- The value returned at the end of an iteration, `none` when the loop goes on. -/
def Flow.ret : Flow → Option Int
  | .again _ => none
  | .leave ret _ => some ret

/-- The options passed to `PTRACE_SETOPTIONS`. -/
def trace_options : Nat :=
  PTRACE_O_TRACEEXIT ||| PTRACE_O_TRACEFORK ||| PTRACE_O_TRACEVFORK ||| PTRACE_O_TRACECLONE

/-- The statements under `if (event == PTRACE_EVENT_EXIT)` that work on
`child`: `stop` is stamped and the four harvesters run, their return values
only deciding whether a diagnostic is printed. -/
def grab_final_stats (e : WaitEvent) (child : ProcInfo) : ProcInfo :=
  let c0 := { child with stop := get_time e.stopTv }
  let c1 := (proc_read_exe e.exeLink c0).2
  let c2 := (proc_read_meminfo e.statusFile c1).2
  let c3 := (proc_read_statinfo e.statFile c2).2
  (proc_read_io e.ioFile c3).2

/-- The request `ptrace(PTRACE_CONT, cpid, NULL, signal)` and the test of its
result; on success control reaches the end of the loop body. -/
def ptrace_cont (st : TraceState) (e : WaitEvent) (signal : Int) : Flow :=
  let st1 := { st with calls := st.calls ++ [PtraceCall.cont e.cpid signal] }
  if e.contRet ≠ 0 then Flow.leave (-1) st1 else Flow.again st1

/-- The block `if (WIFEXITED(status))` of the loop body: if the exiting child
was the main process, its usage is stored. -/
def child_exited (main : Int) (st : TraceState) (e : WaitEvent) : TraceState :=
  if WIFEXITED e.status then
    if main = e.cpid then { st with main_usage := e.usage } else st
  else st

/-- The block `if (WIFSTOPPED(status))` of the loop body, `child` being the
record of `cpid`. -/
def child_stopped (main : Int) (st : TraceState) (e : WaitEvent) (child : Nat) : Flow :=
  if WIFSTOPPED e.status then
    if WSTOPSIG e.status = SIGTRAP then
      let event : Int := e.status / 65536
      if event = PTRACE_EVENT_EXIT then
        let st2 := { st with procs := update_at st.procs child (grab_final_stats e),
                             stop_set := st.stop_set ++ [e.cpid],
                             clock := st.clock ++ [get_time e.stopTv] }
        if e.cpid = main then
          let st3 := { st2 with calls := st2.calls ++ [PtraceCall.geteventmsg e.cpid] }
          if e.eventmsgRet < 0 then Flow.leave (-1) st3
          else ptrace_cont { st3 with main_status := int_of_ulong e.eventmsg } e 0
        else ptrace_cont st2 e 0
      else ptrace_cont st e 0
    else
      let signal : Int := WSTOPSIG e.status
      let signal : Int := if signal = SIGSTOP ∨ signal = SIGTSTP then 0 else signal
      ptrace_cont st e signal
  else Flow.again st

/-- The part of the loop body after the record `child` of `cpid` is at hand:
the block `child exited`, then the block `child stopped`. -/
def handle_status (main : Int) (st : TraceState) (e : WaitEvent) (child : Nat) : Flow :=
  child_stopped main (child_exited main st e) e child

/-- One iteration of the event loop of `procParentTrace`. -/
def trace_iteration (main : Int) (st : TraceState) (e : WaitEvent) : Flow :=
  if e.cpid < 0 then
    if e.errno = ECHILD then Flow.leave 0 st
    else if e.errno = EINTR then Flow.again st
    else Flow.leave (-1) st
  else
    match proc_lookup st.procs e.cpid with
    | some child => handle_status main st e child
    | none =>
      match proc_add st.procs e.cpid e.callocOk with
      | none => Flow.leave (-1) st
      | some (procs1, child) =>
        let procs2 := update_at procs1 child (fun c => { c with start := get_time e.startTv })
        let st1 := { st with procs := procs2,
                             calls := st.calls ++ [PtraceCall.setoptions e.cpid trace_options],
                             clock := st.clock ++ [get_time e.startTv] }
        if e.setoptionsRet ≠ 0 then Flow.leave (-1) st1
        else handle_status main st1 e child

/-- Do the parent part of fork() (with `HAS_PTRACE`): the event loop run on
the successive answers of the system.  The result is the return value, `none`
while the function is still blocked in `wait4` after the last answer, and the
memory. -/
def procParentTrace (main : Int) : TraceState → List WaitEvent → Option Int × TraceState
  | st, [] => (none, st)
  | st, e :: rest =>
    match trace_iteration main st e with
    | Flow.again st1 => procParentTrace main st1 rest
    | Flow.leave ret st1 => (some ret, st1)

/-! ## The fallback waiter -/

/-- What one call `wait4(main, main_status, 0, main_usage)` answers: its
return value, `errno`, and what it stores on success. -/
structure Wait4Answer where
  ret : Int
  errno : Int
  status : Int
  usage : Rusage
deriving DecidableEq, Repr

/-- The memory `procParentWait` works on, and the number of `wait4` calls made. -/
structure WaitState where
  main_status : Int
  main_usage : Rusage
  waits : Nat
deriving DecidableEq, Repr

/-- The function `procParentWait`: the `while (wait4(...) < 0)` loop run on
the successive answers of `wait4`.  The result is the return value, `none`
while the function has not returned after the last answer, and the memory. -/
def procParentWait : WaitState → List Wait4Answer → Option Int × WaitState
  | st, [] => (none, st)
  | st, w :: rest =>
    let st0 := { st with waits := st.waits + 1 }
    if w.ret < 0 then
      let st1 := if w.errno ≠ EINTR then { st0 with main_status := -42 } else st0
      procParentWait st1 rest
    else
      let st1 := { st0 with main_status := w.status, main_usage := w.usage }
      (some st1.main_status, st1)

/-! ## The record emitter -/

/-- The arguments of the `fprintf` call of `printXMLProcInfo`, in the order
of the attributes of the `<proc .../>` element they are printed as. -/
structure ProcElement where
  indent : Int
  ppid : Int
  pid : Int
  exe : Option String
  start : ℚ
  stop : ℚ
  utime : ℚ
  stime : ℚ
  vmpeak : Int
  rsspeak : Int
  rchar : Nat
  wchar : Nat
  rbytes : Nat
  wbytes : Nat
  cwbytes : Nat
  syscr : Nat
  syscw : Nat
deriving DecidableEq, Repr

/-- The `fprintf` call of `printXMLProcInfo` for the node `i`. -/
def fprintf_proc (indent : Int) (i : ProcInfo) : ProcElement :=
  { indent := indent, ppid := i.ppid, pid := i.pid, exe := i.exe,
    start := i.start, stop := i.stop, utime := i.utime, stime := i.stime,
    vmpeak := i.vmpeak, rsspeak := i.rsspeak, rchar := i.rchar, wchar := i.wchar,
    rbytes := i.read_bytes, wbytes := i.write_bytes,
    cwbytes := i.cancelled_write_bytes, syscr := i.syscr, syscw := i.syscw }

/-- Write <proc> records to buffer: `out` is what the stream holds, the
result is what it holds afterwards and the return value. -/
def printXMLProcInfo (out : List ProcElement) (indent : Int) :
    List ProcInfo → List ProcElement × Int
  | [] => (out, 0)
  | i :: next =>
    if i.tgid ≠ i.pid then printXMLProcInfo out indent next
    else printXMLProcInfo (out ++ [fprintf_proc indent i]) indent next

/-! ## Definitions used by the statements and the proofs

None of these is part of the program: they name lists of pids, the record a
first wake-up creates, summaries of the loop body, the loop invariants, and
sample inputs on which the theorems are instantiated. -/

/-- The pids of a record list, in list order. -/
def pids (l : List ProcInfo) : List Int := l.map (fun r => r.pid)

/-- The proof-side view of a write through the pointer `proc_lookup`
returned: the first node with the given pid is replaced. -/
def update_first (p : Int) (f : ProcInfo → ProcInfo) : List ProcInfo → List ProcInfo
  | [] => []
  | c :: rest => if c.pid = p then f c :: rest else c :: update_first p f rest

/-- The record a first wake-up of `pid` creates: zeroed, `pid` set, `start`
stamped with the clock reading `t`. -/
def new_record (pid : Int) (t : ℚ) : ProcInfo :=
  { pid := pid, ppid := 0, tgid := 0, exe := none, start := t, stop := 0,
    utime := 0, stime := 0, vmpeak := 0, rsspeak := 0, rchar := 0, wchar := 0,
    syscr := 0, syscw := 0, read_bytes := 0, write_bytes := 0,
    cancelled_write_bytes := 0 }

/-- The invariant of the event loop on the time stamps: pids are distinct,
`stop` has been stamped only for pids of the list, the `start` of every
record is one of the clock readings taken so far, and a record whose `stop`
has been stamped has `start ≤ stop`. -/
def LoopInv (st : TraceState) : Prop :=
  (pids st.procs).Nodup ∧
  (∀ p ∈ st.stop_set, p ∈ pids st.procs) ∧
  (∀ r ∈ st.procs, r.start ∈ st.clock) ∧
  (∀ r ∈ st.procs, r.pid ∈ st.stop_set → r.start ≤ r.stop)

/-- The invariant of the event loop on `tgid`: pids are distinct and a record
whose `stop` has not been stamped still has `tgid` 0. -/
def TgidInv (st : TraceState) : Prop :=
  (pids st.procs).Nodup ∧ (∀ r ∈ st.procs, r.pid ∉ st.stop_set → r.tgid = 0)

/-- The proof-side summary of the `ptrace` requests of the second half of the
loop body, as a function of the wait status, the pid and the result of
`PTRACE_GETEVENTMSG`. -/
def status_calls (main status cpid eventmsgRet : Int) : List PtraceCall :=
  if WIFSTOPPED status then
    if WSTOPSIG status = SIGTRAP then
      if status / 65536 = PTRACE_EVENT_EXIT ∧ cpid = main then
        if eventmsgRet < 0 then [PtraceCall.geteventmsg cpid]
        else [PtraceCall.geteventmsg cpid, PtraceCall.cont cpid 0]
      else [PtraceCall.cont cpid 0]
    else if WSTOPSIG status = SIGSTOP ∨ WSTOPSIG status = SIGTSTP then [PtraceCall.cont cpid 0]
    else [PtraceCall.cont cpid (WSTOPSIG status)]
  else []

/-- The proof-side summary of the value returned by the second half of the
loop body. -/
def status_ret (main status cpid eventmsgRet contRet : Int) : Option Int :=
  if WIFSTOPPED status then
    if WSTOPSIG status = SIGTRAP ∧ status / 65536 = PTRACE_EVENT_EXIT ∧ cpid = main ∧
        eventmsgRet < 0 then some (-1)
    else if contRet ≠ 0 then some (-1) else none
  else none

/-- The memory at the call of `procParentTrace` with an empty record list
and the given contents of the two out parameters. -/
def initial_state (main_status : Int) (main_usage : Rusage) : TraceState :=
  { procs := [], main_status := main_status, main_usage := main_usage,
    calls := [], stop_set := [], clock := [] }

/-- The memory at the call of `procParentTrace` with an empty record list
and zeroed out parameters. -/
def empty_state : TraceState := initial_state 0 { words := [] }

/-- A wake-up of `cpid` with wait status `status` during which every system
call succeeds: the clock reads `t0` seconds for `start` and `t1` seconds for
`stop`, `/proc/[pid]/exe` points to `/bin/true`, the `status`, `stat` and `io`
files are present, and the event message is `msg`. -/
def sample_event (cpid status : Int) (t0 t1 : Int) (msg : Nat) : WaitEvent :=
  { cpid := cpid, errno := 0, status := status, usage := { words := [] },
    callocOk := true, startTv := { tv_sec := t0, tv_usec := 0 }, setoptionsRet := 0,
    stopTv := { tv_sec := t1, tv_usec := 0 },
    exeLink := { size := 9, target := "/bin/true" },
    statusFile := { accessRet := 0, fopenOk := true,
                    lines := ["Name:\ttrue\n", "Tgid:\t" ++ toString cpid ++ "\n",
                              "PPid:\t1\n", "VmPeak:\t    4000 kB\n",
                              "VmHWM:\t     700 kB\n"],
                    ferror := false, fcloseRet := 0 },
    statFile := { accessRet := 0, fopenOk := true, utime := 3, stime := 1, clocks := 100,
                  ferror := false, fcloseRet := 0 },
    ioFile := { accessRet := 0, fopenOk := true,
                lines := ["rchar: 3021\n", "wchar: 0\n", "syscr: 7\n", "syscw: 0\n",
                          "read_bytes: 4096\n", "write_bytes: 0\n",
                          "cancelled_write_bytes: 0\n"],
                ferror := false, fcloseRet := 0 },
    eventmsgRet := 0, eventmsg := msg, contRet := 0 }

/-- A failed `wait4` that set `errno`. -/
def failed_wait (errno : Int) : WaitEvent :=
  { sample_event (-1) 0 0 0 0 with errno := errno }

/-- A wake-up like `sample_event` during which all four `/proc` harvesters
fail: `readlink` returns -1 and none of the three files can be opened. -/
def failed_harvest_event (cpid status : Int) (t0 t1 : Int) (msg : Nat) : WaitEvent :=
  { sample_event cpid status t0 t1 msg with
    exeLink := { size := -1, target := "" },
    statusFile := { accessRet := 0, fopenOk := false, lines := [], ferror := false,
                    fcloseRet := 0 },
    statFile := { accessRet := 0, fopenOk := false, utime := 0, stime := 0, clocks := 100,
                  ferror := false, fcloseRet := 0 },
    ioFile := { accessRet := 0, fopenOk := false, lines := [], ferror := false,
                fcloseRet := 0 } }

/-- A wake-up like `sample_event` at which `/proc/[pid]/status` is missing. -/
def missing_status_event (cpid status : Int) (t0 t1 : Int) (msg : Nat) : WaitEvent :=
  { sample_event cpid status t0 t1 msg with
    statusFile := { accessRet := -1, fopenOk := false, lines := [], ferror := false,
                    fcloseRet := 0 } }

/-- The memory at the call of `procParentWait`. -/
def wait_start : WaitState :=
  { main_status := 0, main_usage := { words := [] }, waits := 0 }

/-- A call of `wait4` that fails with `ECHILD`. -/
def wait_echild : Wait4Answer :=
  { ret := -1, errno := ECHILD, status := 0, usage := { words := [] } }

/-! ## Helper lemmas on the record store -/

lemma link_last_eq (cur : ProcInfo) (rest : List ProcInfo) (new : ProcInfo) :
    link_last cur rest new = cur :: rest ++ [new] := by
  induction rest generalizing cur with
  | nil => rfl
  | cons nxt rest ih => simp [link_last, ih]

lemma proc_add_eq (list : List ProcInfo) (pid : Int) (callocOk : Bool) :
    proc_add list pid callocOk =
      if callocOk then
        some (list ++ [{ pid := pid, ppid := 0, tgid := 0, exe := none, start := 0,
                         stop := 0, utime := 0, stime := 0, vmpeak := 0, rsspeak := 0,
                         rchar := 0, wchar := 0, syscr := 0, syscw := 0, read_bytes := 0,
                         write_bytes := 0, cancelled_write_bytes := 0 }], list.length)
      else none := by
  cases callocOk with
  | false => simp [proc_add, initProcInfo]
  | true =>
    cases list with
    | nil => simp [proc_add, initProcInfo]
    | cons cur rest => simp [proc_add, initProcInfo, link_last_eq]

lemma proc_lookup_none {l : List ProcInfo} {p : Int} :
    proc_lookup l p = none ↔ p ∉ pids l := by
  induction l with
  | nil => simp [proc_lookup, pids]
  | cons c rest ih =>
    unfold proc_lookup
    by_cases h : c.pid = p
    · simp [h, pids]
    · have h2 : ¬ p = c.pid := fun h3 => h h3.symm
      cases hl : proc_lookup rest p with
      | none => simp [h, pids, h2] at *; exact ih.mp hl
      | some i =>
        simp only [h, if_false, pids, List.map_cons, List.mem_cons, h2, false_or]
        constructor
        · intro h3; cases h3
        · intro h3; rw [hl] at ih; exact absurd (ih.mpr h3) (by simp)

lemma update_at_lookup {l : List ProcInfo} {p : Int} {i : Nat} (f : ProcInfo → ProcInfo)
    (h : proc_lookup l p = some i) : update_at l i f = update_first p f l := by
  induction l generalizing i with
  | nil => simp [proc_lookup] at h
  | cons c rest ih =>
    unfold proc_lookup at h
    by_cases hc : c.pid = p
    · simp [hc] at h; subst h; simp [update_at, update_first, hc]
    · simp only [hc, if_false] at h
      cases hl : proc_lookup rest p with
      | none => simp [hl] at h
      | some j =>
        simp [hl] at h; subst h
        simp [update_at, update_first, hc, ih hl]

lemma update_at_append_length (l : List ProcInfo) (new : ProcInfo) (f : ProcInfo → ProcInfo) :
    update_at (l ++ [new]) l.length f = l ++ [f new] := by
  induction l with
  | nil => simp [update_at]
  | cons c rest ih => simp [update_at, ih]

lemma pids_update_first (p : Int) (f : ProcInfo → ProcInfo) (hf : ∀ c, (f c).pid = c.pid)
    (l : List ProcInfo) : pids (update_first p f l) = pids l := by
  induction l with
  | nil => rfl
  | cons c rest ih =>
    unfold update_first
    by_cases hc : c.pid = p
    · simp [hc, pids, hf]
    · simp only [hc, if_false, pids, List.map_cons] at *; rw [ih]

lemma mem_pids {l : List ProcInfo} {r : ProcInfo} (h : r ∈ l) : r.pid ∈ pids l :=
  List.mem_map.mpr ⟨r, h, rfl⟩

lemma mem_update_first {p : Int} {f : ProcInfo → ProcInfo} {l : List ProcInfo} {r : ProcInfo}
    (hnd : (pids l).Nodup) (h : r ∈ update_first p f l) :
    (r ∈ l ∧ r.pid ≠ p) ∨ (∃ c ∈ l, c.pid = p ∧ r = f c) := by
  induction l with
  | nil => simp [update_first] at h
  | cons c rest ih =>
    have hnd2 : c.pid ∉ pids rest ∧ (pids rest).Nodup := by
      simpa [pids] using hnd
    unfold update_first at h
    by_cases hc : c.pid = p
    · simp only [hc, if_true, List.mem_cons] at h
      rcases h with h | h
      · exact Or.inr ⟨c, by simp, hc, h⟩
      · refine Or.inl ⟨by simp [h], fun hr => hnd2.1 ?_⟩
        rw [hc, ← hr]; exact mem_pids h
    · simp only [hc, if_false, List.mem_cons] at h
      rcases h with h | h
      · subst h; exact Or.inl ⟨by simp, hc⟩
      · rcases ih hnd2.2 h with ⟨h1, h2⟩ | ⟨d, h1, h2, h3⟩
        · exact Or.inl ⟨by simp [h1], h2⟩
        · exact Or.inr ⟨d, by simp [h1], h2, h3⟩

/-! ## Helper lemmas on the harvesters -/

lemma proc_read_exe_frame (l : ExeLink) (c : ProcInfo) :
    (proc_read_exe l c).2.pid = c.pid ∧ (proc_read_exe l c).2.start = c.start ∧
    (proc_read_exe l c).2.stop = c.stop ∧ (proc_read_exe l c).2.tgid = c.tgid := by
  unfold proc_read_exe; split <;> simp

lemma meminfo_line_frame (c : ProcInfo) (line : String) :
    (meminfo_line c line).pid = c.pid ∧ (meminfo_line c line).start = c.start ∧
    (meminfo_line c line).stop = c.stop := by
  unfold meminfo_line
  split_ifs <;> (try split) <;> simp

lemma meminfo_lines_frame (lines : List String) (c : ProcInfo) :
    (lines.foldl meminfo_line c).pid = c.pid ∧ (lines.foldl meminfo_line c).start = c.start ∧
    (lines.foldl meminfo_line c).stop = c.stop := by
  induction lines generalizing c with
  | nil => simp
  | cons line rest ih =>
    rw [List.foldl_cons]
    have h1 := ih (meminfo_line c line)
    have h2 := meminfo_line_frame c line
    exact ⟨h1.1.trans h2.1, h1.2.1.trans h2.2.1, h1.2.2.trans h2.2.2⟩

lemma proc_read_meminfo_frame (f : ProcFile) (c : ProcInfo) :
    (proc_read_meminfo f c).2.pid = c.pid ∧ (proc_read_meminfo f c).2.start = c.start ∧
    (proc_read_meminfo f c).2.stop = c.stop := by
  unfold proc_read_meminfo
  split_ifs <;> simp [meminfo_lines_frame]

lemma proc_read_statinfo_frame (f : StatFile) (c : ProcInfo) :
    (proc_read_statinfo f c).2.pid = c.pid ∧ (proc_read_statinfo f c).2.start = c.start ∧
    (proc_read_statinfo f c).2.stop = c.stop ∧ (proc_read_statinfo f c).2.tgid = c.tgid := by
  unfold proc_read_statinfo
  split_ifs <;> simp

lemma io_line_frame (c : ProcInfo) (line : String) :
    (io_line c line).pid = c.pid ∧ (io_line c line).start = c.start ∧
    (io_line c line).stop = c.stop ∧ (io_line c line).tgid = c.tgid := by
  unfold io_line
  split_ifs <;> (try split) <;> simp

lemma io_lines_frame (lines : List String) (c : ProcInfo) :
    (lines.foldl io_line c).pid = c.pid ∧ (lines.foldl io_line c).start = c.start ∧
    (lines.foldl io_line c).stop = c.stop ∧ (lines.foldl io_line c).tgid = c.tgid := by
  induction lines generalizing c with
  | nil => simp
  | cons line rest ih =>
    rw [List.foldl_cons]
    have h1 := ih (io_line c line)
    have h2 := io_line_frame c line
    exact ⟨h1.1.trans h2.1, h1.2.1.trans h2.2.1, h1.2.2.1.trans h2.2.2.1,
      h1.2.2.2.trans h2.2.2.2⟩

lemma proc_read_io_frame (f : ProcFile) (c : ProcInfo) :
    (proc_read_io f c).2.pid = c.pid ∧ (proc_read_io f c).2.start = c.start ∧
    (proc_read_io f c).2.stop = c.stop ∧ (proc_read_io f c).2.tgid = c.tgid := by
  unfold proc_read_io
  split_ifs <;> simp [io_lines_frame]

/-- The pre-exit harvest leaves `pid` and `start` alone and sets `stop` to
the clock reading. -/
lemma grab_final_stats_frame (e : WaitEvent) (c : ProcInfo) :
    (grab_final_stats e c).pid = c.pid ∧ (grab_final_stats e c).start = c.start ∧
    (grab_final_stats e c).stop = get_time e.stopTv := by
  unfold grab_final_stats
  simp only [proc_read_io_frame, proc_read_statinfo_frame, proc_read_meminfo_frame,
    proc_read_exe_frame, and_self]

/-! ## One iteration of the event loop, seen from the record list -/

lemma child_exited_frame (main : Int) (st : TraceState) (e : WaitEvent) :
    (child_exited main st e).procs = st.procs ∧
    (child_exited main st e).main_status = st.main_status ∧
    (child_exited main st e).calls = st.calls ∧
    (child_exited main st e).stop_set = st.stop_set ∧
    (child_exited main st e).clock = st.clock := by
  unfold child_exited
  split_ifs <;> exact ⟨rfl, rfl, rfl, rfl, rfl⟩

lemma handle_status_procs (main : Int) (st : TraceState) (e : WaitEvent) (child : Nat) :
    ((handle_status main st e child).state.procs = st.procs ∧
      (handle_status main st e child).state.stop_set = st.stop_set ∧
      (handle_status main st e child).state.clock = st.clock) ∨
    ((handle_status main st e child).state.procs =
        update_at st.procs child (grab_final_stats e) ∧
      (handle_status main st e child).state.stop_set = st.stop_set ++ [e.cpid] ∧
      (handle_status main st e child).state.clock = st.clock ++ [get_time e.stopTv] ∧
      WIFSTOPPED e.status = true ∧ WSTOPSIG e.status = SIGTRAP ∧
      e.status / 65536 = PTRACE_EVENT_EXIT) := by
  unfold handle_status
  have hfr := child_exited_frame main st e
  rw [← hfr.1, ← hfr.2.2.2.1, ← hfr.2.2.2.2]
  generalize child_exited main st e = s1
  unfold child_stopped ptrace_cont
  dsimp only
  split_ifs <;> simp [Flow.state, *]

lemma proc_lookup_append_new (l : List ProcInfo) (r : ProcInfo) (h : r.pid ∉ pids l) :
    proc_lookup (l ++ [r]) r.pid = some l.length := by
  induction l with
  | nil => simp [proc_lookup]
  | cons c rest ih =>
    have h2 : ¬ c.pid = r.pid ∧ r.pid ∉ pids rest := by
      simp only [pids, List.map_cons, List.mem_cons, not_or] at h
      exact ⟨fun hc => h.1 hc.symm, h.2⟩
    simp [proc_lookup, h2.1, ih h2.2]

lemma proc_lookup_some_mem {l : List ProcInfo} {p : Int} {i : Nat}
    (h : proc_lookup l p = some i) : p ∈ pids l := by
  by_contra hn
  rw [proc_lookup_none.mpr hn] at h
  cases h

lemma trace_iteration_procs (main : Int) (st : TraceState) (e : WaitEvent) :
    ∃ (base : List ProcInfo) (cl : List ℚ),
      ((base = st.procs ∧ cl = st.clock) ∨
        (e.cpid ∉ pids st.procs ∧
          base = st.procs ++ [new_record e.cpid (get_time e.startTv)] ∧
          cl = st.clock ++ [get_time e.startTv])) ∧
      (((trace_iteration main st e).state.procs = base ∧
          (trace_iteration main st e).state.stop_set = st.stop_set ∧
          (trace_iteration main st e).state.clock = cl) ∨
        (e.cpid ∈ pids base ∧
          (trace_iteration main st e).state.procs =
            update_first e.cpid (grab_final_stats e) base ∧
          (trace_iteration main st e).state.stop_set = st.stop_set ++ [e.cpid] ∧
          (trace_iteration main st e).state.clock = cl ++ [get_time e.stopTv] ∧
          WIFSTOPPED e.status = true ∧ WSTOPSIG e.status = SIGTRAP ∧
          e.status / 65536 = PTRACE_EVENT_EXIT)) := by
  unfold trace_iteration
  by_cases hneg : e.cpid < 0
  · refine ⟨st.procs, st.clock, Or.inl ⟨rfl, rfl⟩, Or.inl ?_⟩
    simp only [hneg, if_true]
    split_ifs <;> simp [Flow.state]
  · simp only [hneg, if_false]
    cases hl : proc_lookup st.procs e.cpid with
    | some child =>
      refine ⟨st.procs, st.clock, Or.inl ⟨rfl, rfl⟩, ?_⟩
      simp only
      rw [← update_at_lookup _ hl]
      rcases handle_status_procs main st e child with h | h
      · exact Or.inl h
      · exact Or.inr ⟨proc_lookup_some_mem hl, h⟩
    | none =>
      have hnot : e.cpid ∉ pids st.procs := proc_lookup_none.mp hl
      simp only
      rw [proc_add_eq]
      cases hc : e.callocOk with
      | false =>
        refine ⟨st.procs, st.clock, Or.inl ⟨rfl, rfl⟩, Or.inl ?_⟩
        simp [Flow.state]
      | true =>
        refine ⟨st.procs ++ [new_record e.cpid (get_time e.startTv)],
          st.clock ++ [get_time e.startTv], Or.inr ⟨hnot, rfl, rfl⟩, ?_⟩
        simp only [if_true, update_at_append_length]
        by_cases hs : e.setoptionsRet ≠ 0
        · rw [if_pos hs]
          exact Or.inl ⟨rfl, rfl, rfl⟩
        · rw [if_neg hs]
          have hlk : proc_lookup (st.procs ++ [new_record e.cpid (get_time e.startTv)]) e.cpid
              = some st.procs.length :=
            proc_lookup_append_new st.procs (new_record e.cpid (get_time e.startTv)) hnot
          have h := handle_status_procs main
            { st with procs := st.procs ++ [new_record e.cpid (get_time e.startTv)],
                      calls := st.calls ++ [PtraceCall.setoptions e.cpid trace_options],
                      clock := st.clock ++ [get_time e.startTv] } e
            st.procs.length
          rw [update_at_lookup _ hlk] at h
          rcases h with h | h
          · exact Or.inl h
          · exact Or.inr ⟨proc_lookup_some_mem hlk, h⟩

lemma pids_append_new (l : List ProcInfo) (r : ProcInfo) :
    pids (l ++ [r]) = pids l ++ [r.pid] := by
  simp [pids]

lemma trace_iteration_nodup (main : Int) (st : TraceState) (e : WaitEvent)
    (h : (pids st.procs).Nodup) : (pids (trace_iteration main st e).state.procs).Nodup := by
  obtain ⟨base, cl, hbase, hprocs⟩ := trace_iteration_procs main st e
  have hb : (pids base).Nodup := by
    rcases hbase with ⟨hb, _⟩ | ⟨hnot, hb, _⟩
    · rw [hb]; exact h
    · rw [hb, pids_append_new]
      exact List.Nodup.append h (List.nodup_singleton _) (by simpa [new_record] using hnot)
  rcases hprocs with ⟨hp, _⟩ | ⟨_, hp, _⟩
  · rw [hp]; exact hb
  · rw [hp, pids_update_first _ _ (fun c => (grab_final_stats_frame e c).1)]; exact hb

lemma procParentTrace_nodup (main : Int) (events : List WaitEvent) (st : TraceState)
    (h : (pids st.procs).Nodup) : (pids (procParentTrace main st events).2.procs).Nodup := by
  induction events generalizing st with
  | nil => exact h
  | cons e rest ih =>
    have hstep := trace_iteration_nodup main st e h
    unfold procParentTrace
    cases hflow : trace_iteration main st e with
    | again st1 => rw [hflow] at hstep; exact ih st1 hstep
    | leave ret st1 => rw [hflow] at hstep; exact hstep

lemma printXMLProcInfo_eq (out : List ProcElement) (indent : Int) (procs : List ProcInfo) :
    printXMLProcInfo out indent procs =
      (out ++ (procs.filter (fun i => decide (i.tgid = i.pid))).map (fprintf_proc indent), 0) := by
  induction procs generalizing out with
  | nil => simp [printXMLProcInfo]
  | cons i next ih =>
    unfold printXMLProcInfo
    by_cases h : i.tgid = i.pid
    · simp [h, ih]
    · simp [h, ih]

/-! ## The invariants behind `start ≤ stop` and the default `tgid` -/

lemma trace_iteration_tgid_inv (main : Int) (st : TraceState) (e : WaitEvent)
    (hinv : TgidInv st) : TgidInv (trace_iteration main st e).state := by
  obtain ⟨hnd, htgid⟩ := hinv
  have hnd1 := trace_iteration_nodup main st e hnd
  obtain ⟨base, cl, hbase, hprocs⟩ := trace_iteration_procs main st e
  have hb_nd : (pids base).Nodup := by
    rcases hbase with ⟨hb, _⟩ | ⟨hnot, hb, _⟩
    · rw [hb]; exact hnd
    · rw [hb, pids_append_new]
      exact List.Nodup.append hnd (List.nodup_singleton _) (by simpa [new_record] using hnot)
  have hb_tgid : ∀ r ∈ base, r.pid ∉ st.stop_set → r.tgid = 0 := by
    intro r hr hp
    rcases hbase with ⟨hb, _⟩ | ⟨_, hb, _⟩
    · rw [hb] at hr; exact htgid r hr hp
    · rw [hb] at hr
      rcases List.mem_append.mp hr with h | h
      · exact htgid r h hp
      · rw [List.mem_singleton.mp h]; rfl
  refine ⟨hnd1, ?_⟩
  rcases hprocs with ⟨hp, hs, _⟩ | ⟨_, hp, hs, _⟩
  · rw [hp, hs]; exact hb_tgid
  · rw [hp, hs]
    intro r hr hnin
    rcases mem_update_first hb_nd hr with ⟨hr1, _⟩ | ⟨c, _, hcp, rfl⟩
    · exact hb_tgid r hr1 (fun h => hnin (List.mem_append_left _ h))
    · exfalso
      apply hnin
      rw [(grab_final_stats_frame e c).1, hcp]
      exact List.mem_append_right _ (List.mem_singleton.mpr rfl)

lemma procParentTrace_tgid_inv (main : Int) (events : List WaitEvent) (st : TraceState)
    (hinv : TgidInv st) : TgidInv (procParentTrace main st events).2 := by
  induction events generalizing st with
  | nil => exact hinv
  | cons e rest ih =>
    have hstep := trace_iteration_tgid_inv main st e hinv
    unfold procParentTrace
    cases hflow : trace_iteration main st e with
    | again st1 => rw [hflow] at hstep; exact ih st1 hstep
    | leave ret st1 => rw [hflow] at hstep; exact hstep

/-- The clock history only grows during an iteration. -/
lemma trace_iteration_clock (main : Int) (st : TraceState) (e : WaitEvent) :
    st.clock <+: (trace_iteration main st e).state.clock := by
  obtain ⟨base, cl, hbase, hprocs⟩ := trace_iteration_procs main st e
  have hcl : st.clock <+: cl := by
    rcases hbase with ⟨_, hc⟩ | ⟨_, _, hc⟩
    · rw [hc]
    · rw [hc]; exact List.prefix_append _ _
  rcases hprocs with ⟨_, _, hc⟩ | ⟨_, _, _, hc, _⟩
  · rw [hc]; exact hcl
  · rw [hc]; exact hcl.trans (List.prefix_append _ _)

/-- The clock history only grows during a run. -/
lemma procParentTrace_clock (main : Int) (events : List WaitEvent) (st : TraceState) :
    st.clock <+: (procParentTrace main st events).2.clock := by
  induction events generalizing st with
  | nil => exact List.prefix_refl _
  | cons e rest ih =>
    have hstep := trace_iteration_clock main st e
    unfold procParentTrace
    cases hflow : trace_iteration main st e with
    | again st1 => rw [hflow] at hstep; exact hstep.trans (ih st1)
    | leave ret st1 => rw [hflow] at hstep; exact hstep

lemma trace_iteration_inv (main : Int) (st : TraceState) (e : WaitEvent)
    (hinv : LoopInv st)
    (hclock : (trace_iteration main st e).state.clock.Pairwise (fun a b => a ≤ b)) :
    LoopInv (trace_iteration main st e).state := by
  obtain ⟨hnd, hsub, hstart, hstop⟩ := hinv
  have hnd1 := trace_iteration_nodup main st e hnd
  obtain ⟨base, cl, hbase, hprocs⟩ := trace_iteration_procs main st e
  -- the facts about `base` and `cl`
  have hb_nd : (pids base).Nodup := by
    rcases hbase with ⟨hb, _⟩ | ⟨hnot, hb, _⟩
    · rw [hb]; exact hnd
    · rw [hb, pids_append_new]
      exact List.Nodup.append hnd (List.nodup_singleton _) (by simpa [new_record] using hnot)
  have hb_sub : ∀ p ∈ st.stop_set, p ∈ pids base := by
    intro p hp
    rcases hbase with ⟨hb, _⟩ | ⟨_, hb, _⟩
    · rw [hb]; exact hsub p hp
    · rw [hb, pids_append_new]; exact List.mem_append_left _ (hsub p hp)
  have hb_start : ∀ r ∈ base, r.start ∈ cl := by
    intro r hr
    rcases hbase with ⟨hb, hc⟩ | ⟨_, hb, hc⟩
    · rw [hb] at hr; rw [hc]; exact hstart r hr
    · rw [hb] at hr; rw [hc]
      rcases List.mem_append.mp hr with h | h
      · exact List.mem_append_left _ (hstart r h)
      · rw [List.mem_singleton.mp h]
        exact List.mem_append_right _ (List.mem_singleton.mpr rfl)
  have hb_stop : ∀ r ∈ base, r.pid ∈ st.stop_set → r.start ≤ r.stop := by
    intro r hr hp
    rcases hbase with ⟨hb, _⟩ | ⟨hnot, hb, _⟩
    · rw [hb] at hr; exact hstop r hr hp
    · rw [hb] at hr
      rcases List.mem_append.mp hr with h | h
      · exact hstop r h hp
      · rw [List.mem_singleton.mp h] at hp
        exact absurd (hsub _ hp) hnot
  rcases hprocs with ⟨hp, hs, hc⟩ | ⟨hmem, hp, hs, hc, _⟩
  · refine ⟨hnd1, ?_, ?_, ?_⟩
    · rw [hp, hs]; exact hb_sub
    · rw [hp, hc]; exact hb_start
    · rw [hp, hs]; exact hb_stop
  · have hpids : pids (trace_iteration main st e).state.procs = pids base := by
      rw [hp, pids_update_first _ _ (fun c => (grab_final_stats_frame e c).1)]
    -- every reading taken before the one for `stop` is at most that one
    have hle : ∀ a ∈ cl, a ≤ get_time e.stopTv := by
      rw [hc] at hclock
      intro a ha
      exact (List.pairwise_append.mp hclock).2.2 a ha _ (List.mem_singleton.mpr rfl)
    refine ⟨hnd1, ?_, ?_, ?_⟩
    · rw [hpids, hs]
      intro p hp2
      rcases List.mem_append.mp hp2 with h | h
      · exact hb_sub p h
      · rw [List.mem_singleton.mp h]; exact hmem
    · rw [hp, hc]
      intro r hr
      rcases mem_update_first hb_nd hr with ⟨hr1, _⟩ | ⟨c, hc1, _, rfl⟩
      · exact List.mem_append_left _ (hb_start r hr1)
      · rw [(grab_final_stats_frame e c).2.1]
        exact List.mem_append_left _ (hb_start c hc1)
    · rw [hp, hs]
      intro r hr hin
      rcases mem_update_first hb_nd hr with ⟨hr1, hne⟩ | ⟨c, hc1, _, rfl⟩
      · rcases List.mem_append.mp hin with h | h
        · exact hb_stop r hr1 h
        · exact absurd (List.mem_singleton.mp h) hne
      · rw [(grab_final_stats_frame e c).2.1, (grab_final_stats_frame e c).2.2]
        exact hle _ (hb_start c hc1)

lemma procParentTrace_inv (main : Int) (events : List WaitEvent) (st : TraceState)
    (hinv : LoopInv st)
    (hclock : (procParentTrace main st events).2.clock.Pairwise (fun a b => a ≤ b)) :
    LoopInv (procParentTrace main st events).2 := by
  induction events generalizing st with
  | nil => exact hinv
  | cons e rest ih =>
    unfold procParentTrace at hclock ⊢
    cases hflow : trace_iteration main st e with
    | again st1 =>
      rw [hflow] at hclock
      dsimp only at hclock ⊢
      have hpre : st1.clock <+: (procParentTrace main st1 rest).2.clock :=
        procParentTrace_clock main rest st1
      have hstep := trace_iteration_inv main st e hinv
        (by rw [hflow]; exact List.Pairwise.sublist hpre.sublist hclock)
      rw [hflow] at hstep
      exact ih st1 hstep hclock
    | leave ret st1 =>
      rw [hflow] at hclock
      have hstep := trace_iteration_inv main st e hinv (by rw [hflow]; exact hclock)
      rw [hflow] at hstep
      exact hstep

/-! ## One iteration of the event loop, seen from `main_status` and the control flow -/

lemma ptrace_cont_state (st : TraceState) (e : WaitEvent) (signal : Int) :
    (ptrace_cont st e signal).state =
      { st with calls := st.calls ++ [PtraceCall.cont e.cpid signal] } := by
  unfold ptrace_cont
  dsimp only
  split_ifs <;> rfl

lemma handle_status_main_status (main : Int) (st : TraceState) (e : WaitEvent) (child : Nat) :
    (handle_status main st e child).state.main_status =
      if WIFSTOPPED e.status = true ∧ WSTOPSIG e.status = SIGTRAP ∧
          e.status / 65536 = PTRACE_EVENT_EXIT ∧ e.cpid = main ∧ 0 ≤ e.eventmsgRet
      then int_of_ulong e.eventmsg else st.main_status := by
  unfold handle_status
  rw [← (child_exited_frame main st e).2.1]
  generalize child_exited main st e = s1
  unfold child_stopped
  dsimp only
  by_cases hc : WIFSTOPPED e.status = true ∧ WSTOPSIG e.status = SIGTRAP ∧
      e.status / 65536 = PTRACE_EVENT_EXIT ∧ e.cpid = main ∧ 0 ≤ e.eventmsgRet
  · rw [if_pos hc]
    obtain ⟨h1, h2, h3, h4, h6⟩ := hc
    have h5 : ¬ e.eventmsgRet < 0 := not_lt.mpr h6
    rw [if_pos h1, if_pos h2, if_pos h3, if_pos h4, if_neg h5, ptrace_cont_state]
  · rw [if_neg hc]
    split_ifs <;>
      first
      | (exfalso; apply hc
         refine ⟨by assumption, by assumption, by assumption, by assumption, ?_⟩
         omega)
      | rw [ptrace_cont_state]
      | rfl

/-- The ways an iteration can go up to the point where the record of `cpid`
is at hand. -/
lemma trace_iteration_shape (main : Int) (st : TraceState) (e : WaitEvent) :
    (e.cpid < 0 ∧ trace_iteration main st e =
        (if e.errno = ECHILD then Flow.leave 0 st
         else if e.errno = EINTR then Flow.again st else Flow.leave (-1) st)) ∨
    (0 ≤ e.cpid ∧ proc_lookup st.procs e.cpid = none ∧ e.callocOk = false ∧
        trace_iteration main st e = Flow.leave (-1) st) ∨
    (0 ≤ e.cpid ∧ proc_lookup st.procs e.cpid = none ∧ e.callocOk = true ∧
        e.setoptionsRet ≠ 0 ∧
        ∃ s0, trace_iteration main st e = Flow.leave (-1) s0 ∧
          s0.main_status = st.main_status ∧ s0.main_usage = st.main_usage ∧
          s0.calls = st.calls ++ [PtraceCall.setoptions e.cpid trace_options]) ∨
    (0 ≤ e.cpid ∧ (proc_lookup st.procs e.cpid = none → e.callocOk = true ∧ e.setoptionsRet = 0) ∧
        ∃ s0 child, trace_iteration main st e = handle_status main s0 e child ∧
          s0.main_status = st.main_status ∧ s0.main_usage = st.main_usage ∧
          (s0.calls = st.calls ∨
            s0.calls = st.calls ++ [PtraceCall.setoptions e.cpid trace_options])) := by
  unfold trace_iteration
  by_cases hneg : e.cpid < 0
  · left
    rw [if_pos hneg]
    exact ⟨hneg, rfl⟩
  · have hnn : 0 ≤ e.cpid := not_lt.mp hneg
    right
    rw [if_neg hneg]
    cases hl : proc_lookup st.procs e.cpid with
    | some child =>
      right; right
      exact ⟨hnn, fun h => Option.noConfusion h, st, child, rfl, rfl, rfl, Or.inl rfl⟩
    | none =>
      dsimp only
      rw [proc_add_eq]
      cases hc : e.callocOk with
      | false =>
        left
        exact ⟨hnn, rfl, rfl, by simp⟩
      | true =>
        right
        rw [if_pos rfl]
        dsimp only
        by_cases hs : e.setoptionsRet ≠ 0
        · left
          rw [if_pos hs]
          exact ⟨hnn, rfl, rfl, hs, _, rfl, rfl, rfl, rfl⟩
        · right
          rw [if_neg hs]
          exact ⟨hnn, fun _ => ⟨rfl, not_not.mp hs⟩, _, _, rfl, rfl, rfl, Or.inr rfl⟩

lemma trace_iteration_main_status (main : Int) (st : TraceState) (e : WaitEvent) :
    (trace_iteration main st e).state.main_status =
      if 0 ≤ e.cpid ∧ (proc_lookup st.procs e.cpid = none →
            e.callocOk = true ∧ e.setoptionsRet = 0) ∧
          WIFSTOPPED e.status = true ∧ WSTOPSIG e.status = SIGTRAP ∧
          e.status / 65536 = PTRACE_EVENT_EXIT ∧ e.cpid = main ∧ 0 ≤ e.eventmsgRet
      then int_of_ulong e.eventmsg else st.main_status := by
  by_cases hcond : 0 ≤ e.cpid ∧ (proc_lookup st.procs e.cpid = none →
            e.callocOk = true ∧ e.setoptionsRet = 0) ∧
          WIFSTOPPED e.status = true ∧ WSTOPSIG e.status = SIGTRAP ∧
          e.status / 65536 = PTRACE_EVENT_EXIT ∧ e.cpid = main ∧ 0 ≤ e.eventmsgRet
  · rw [if_pos hcond]
    rcases trace_iteration_shape main st e with ⟨hneg, _⟩ | ⟨_, hl, hc, _⟩ |
        ⟨_, hl, _, hs, _⟩ | ⟨_, _, s0, child, h, hms, _, _⟩
    · exact absurd hcond.1 (not_le.mpr hneg)
    · have := (hcond.2.1 hl).1
      rw [hc] at this
      cases this
    · exact absurd (hcond.2.1 hl).2 hs
    · rw [h, handle_status_main_status, if_pos hcond.2.2]
  · rw [if_neg hcond]
    rcases trace_iteration_shape main st e with ⟨_, h⟩ | ⟨_, _, _, h⟩ |
        ⟨_, _, _, _, s0, h, hms, _, _⟩ | ⟨hnn, hsetup, s0, child, h, hms, _, _⟩
    · rw [h]
      split_ifs <;> rfl
    · rw [h]; rfl
    · rw [h]; exact hms
    · rw [h, handle_status_main_status, if_neg (fun hh => hcond ⟨hnn, hsetup, hh⟩), hms]

lemma handle_status_exit_trap (main : Int) (s0 : TraceState) (e : WaitEvent) (child : Nat)
    (h1 : WIFSTOPPED e.status = true) (h2 : WSTOPSIG e.status = SIGTRAP)
    (h3 : e.status / 65536 = PTRACE_EVENT_EXIT) (h4 : e.cpid = main → 0 ≤ e.eventmsgRet)
    (h5 : e.contRet = 0) :
    ∃ st1, handle_status main s0 e child = Flow.again st1 ∧
      st1.calls.getLast? = some (PtraceCall.cont e.cpid 0) := by
  have h5n : ¬ e.contRet ≠ 0 := fun h => h h5
  unfold handle_status
  generalize child_exited main s0 e = s1
  unfold child_stopped ptrace_cont
  dsimp only
  rw [if_pos h1, if_pos h2, if_pos h3]
  by_cases hm : e.cpid = main
  · have h6 : ¬ e.eventmsgRet < 0 := not_lt.mpr (h4 hm)
    rw [if_pos hm, if_neg h6, if_neg h5n]
    exact ⟨_, rfl, by simp⟩
  · rw [if_neg hm, if_neg h5n]
    exact ⟨_, rfl, by simp⟩

lemma handle_status_summary (main : Int) (s0 : TraceState) (e : WaitEvent) (child : Nat) :
    (handle_status main s0 e child).ret =
      status_ret main e.status e.cpid e.eventmsgRet e.contRet ∧
    (handle_status main s0 e child).state.calls =
      s0.calls ++ status_calls main e.status e.cpid e.eventmsgRet := by
  unfold handle_status
  rw [← (child_exited_frame main s0 e).2.2.1]
  generalize child_exited main s0 e = s1
  unfold child_stopped ptrace_cont status_ret status_calls
  dsimp only
  by_cases h1 : WIFSTOPPED e.status = true
  · simp only [if_pos h1]
    by_cases h2 : WSTOPSIG e.status = SIGTRAP
    · simp only [if_pos h2]
      by_cases h3 : e.status / 65536 = PTRACE_EVENT_EXIT
      · simp only [if_pos h3]
        by_cases h4 : e.cpid = main
        · simp only [if_pos h4]
          have h34 : e.status / 65536 = PTRACE_EVENT_EXIT ∧ e.cpid = main := ⟨h3, h4⟩
          simp only [if_pos h34]
          by_cases h5 : e.eventmsgRet < 0
          · have h2345 : WSTOPSIG e.status = SIGTRAP ∧ e.status / 65536 = PTRACE_EVENT_EXIT ∧
                e.cpid = main ∧ e.eventmsgRet < 0 := ⟨h2, h3, h4, h5⟩
            simp only [if_pos h5, if_pos h2345]
            exact ⟨rfl, rfl⟩
          · have h2345 : ¬ (WSTOPSIG e.status = SIGTRAP ∧
                e.status / 65536 = PTRACE_EVENT_EXIT ∧
                e.cpid = main ∧ e.eventmsgRet < 0) := fun h => h5 h.2.2.2
            simp only [if_neg h5, if_neg h2345]
            split_ifs <;> simp [Flow.ret, Flow.state]
        · have h34 : ¬ (e.status / 65536 = PTRACE_EVENT_EXIT ∧ e.cpid = main) :=
            fun h => h4 h.2
          have h2345 : ¬ (WSTOPSIG e.status = SIGTRAP ∧
              e.status / 65536 = PTRACE_EVENT_EXIT ∧
              e.cpid = main ∧ e.eventmsgRet < 0) := fun h => h4 h.2.2.1
          simp only [if_neg h4, if_neg h34, if_neg h2345]
          split_ifs <;> simp [Flow.ret, Flow.state]
      · have h34 : ¬ (e.status / 65536 = PTRACE_EVENT_EXIT ∧ e.cpid = main) :=
          fun h => h3 h.1
        have h2345 : ¬ (WSTOPSIG e.status = SIGTRAP ∧
            e.status / 65536 = PTRACE_EVENT_EXIT ∧
            e.cpid = main ∧ e.eventmsgRet < 0) := fun h => h3 h.2.1
        simp only [if_neg h3, if_neg h34, if_neg h2345]
        split_ifs <;> simp [Flow.ret, Flow.state]
    · have h2345 : ¬ (WSTOPSIG e.status = SIGTRAP ∧
          e.status / 65536 = PTRACE_EVENT_EXIT ∧
          e.cpid = main ∧ e.eventmsgRet < 0) := fun h => h2 h.1
      simp only [if_neg h2, if_neg h2345]
      split_ifs <;> simp [Flow.ret, Flow.state]
  · simp only [if_neg h1]
    exact ⟨rfl, by simp [Flow.state]⟩

/-- The control flow of the second half of the loop body and the requests it
issues depend on the event only through `status`, `cpid`, and the results of
`PTRACE_GETEVENTMSG` and `PTRACE_CONT`. -/
lemma handle_status_control (main : Int) (s0 s1 : TraceState) (e e1 : WaitEvent)
    (child child1 : Nat) (hstatus : e1.status = e.status) (hcpid : e1.cpid = e.cpid)
    (hmsg : e1.eventmsgRet = e.eventmsgRet) (hcont : e1.contRet = e.contRet)
    (hcalls : s1.calls = s0.calls) :
    (handle_status main s1 e1 child1).ret = (handle_status main s0 e child).ret ∧
    (handle_status main s1 e1 child1).state.calls = (handle_status main s0 e child).state.calls := by
  rw [(handle_status_summary main s1 e1 child1).1, (handle_status_summary main s1 e1 child1).2,
    (handle_status_summary main s0 e child).1, (handle_status_summary main s0 e child).2,
    hstatus, hcpid, hmsg, hcont, hcalls]
  exact ⟨rfl, rfl⟩

lemma trace_iteration_control (main : Int) (st : TraceState) (e : WaitEvent)
    (x : ExeLink) (sf : ProcFile) (tf : StatFile) (io : ProcFile) :
    (trace_iteration main st
        { e with exeLink := x, statusFile := sf, statFile := tf, ioFile := io }).ret =
      (trace_iteration main st e).ret ∧
    (trace_iteration main st
        { e with exeLink := x, statusFile := sf, statFile := tf, ioFile := io }).state.calls =
      (trace_iteration main st e).state.calls := by
  unfold trace_iteration
  dsimp only
  by_cases hneg : e.cpid < 0
  · rw [if_pos hneg, if_pos hneg]
    exact ⟨rfl, rfl⟩
  · rw [if_neg hneg, if_neg hneg]
    cases hl : proc_lookup st.procs e.cpid with
    | some child =>
      dsimp only
      exact handle_status_control main st st e _ child child rfl rfl rfl rfl rfl
    | none =>
      dsimp only
      cases hadd : proc_add st.procs e.cpid e.callocOk with
      | none => exact ⟨rfl, rfl⟩
      | some pr =>
        dsimp only
        by_cases hs : e.setoptionsRet ≠ 0
        · rw [if_pos hs, if_pos hs]
          exact ⟨rfl, rfl⟩
        · rw [if_neg hs, if_neg hs]
          exact handle_status_control main _ _ e _ pr.2 pr.2 rfl rfl rfl rfl rfl

/-! ## The harvest of `tgid` -/

lemma meminfo_line_tgid (c : ProcInfo) (line : String)
    (h : startswith line "Tgid" = false) : (meminfo_line c line).tgid = c.tgid := by
  unfold meminfo_line
  rw [h]
  split_ifs <;> first | rfl | (split <;> rfl) | (exfalso; simp_all)

lemma meminfo_lines_tgid (lines : List String) (c : ProcInfo)
    (h : ∀ line ∈ lines, startswith line "Tgid" = false) :
    (lines.foldl meminfo_line c).tgid = c.tgid := by
  induction lines generalizing c with
  | nil => rfl
  | cons line rest ih =>
    rw [List.foldl_cons, ih _ (fun l hl => h l (List.mem_cons_of_mem _ hl)),
      meminfo_line_tgid c line (h line (List.mem_cons_self _ _))]

lemma proc_read_meminfo_tgid (f : ProcFile) (c : ProcInfo)
    (h : f.accessRet < 0 ∨ f.fopenOk = false ∨
      ∀ line ∈ f.lines, startswith line "Tgid" = false) :
    (proc_read_meminfo f c).2.tgid = c.tgid := by
  unfold proc_read_meminfo
  by_cases h1 : f.accessRet < 0
  · rw [if_pos h1]
  · rw [if_neg h1]
    cases h2 : f.fopenOk with
    | false => rfl
    | true =>
      have h3 : ∀ line ∈ f.lines, startswith line "Tgid" = false := by
        rcases h with h | h | h
        · exact absurd h h1
        · rw [h2] at h; cases h
        · exact h
      simp only [Bool.not_true, Bool.false_eq_true, if_false]
      split_ifs <;> exact meminfo_lines_tgid f.lines c h3

lemma grab_final_stats_tgid (e : WaitEvent) (c : ProcInfo)
    (h : e.statusFile.accessRet < 0 ∨ e.statusFile.fopenOk = false ∨
      ∀ line ∈ e.statusFile.lines, startswith line "Tgid" = false) :
    (grab_final_stats e c).tgid = c.tgid := by
  unfold grab_final_stats
  dsimp only
  rw [(proc_read_io_frame _ _).2.2.2, (proc_read_statinfo_frame _ _).2.2.2,
    proc_read_meminfo_tgid _ _ h, (proc_read_exe_frame _ _).2.2.2]

/-- One iteration keeps `tgid` 0 in the record of the pid `p` when the
pre-exit trap of `p`, if this is one, cannot read a `Tgid` line. -/
lemma trace_iteration_tgid_unread (main : Int) (st : TraceState) (e : WaitEvent) (p : Int)
    (hnd : (pids st.procs).Nodup)
    (hinv : ∀ r ∈ st.procs, r.pid = p → r.tgid = 0)
    (he : e.cpid = p → WIFSTOPPED e.status = true → WSTOPSIG e.status = SIGTRAP →
      e.status / 65536 = PTRACE_EVENT_EXIT →
      (e.statusFile.accessRet < 0 ∨ e.statusFile.fopenOk = false ∨
        ∀ line ∈ e.statusFile.lines, startswith line "Tgid" = false)) :
    ∀ r ∈ (trace_iteration main st e).state.procs, r.pid = p → r.tgid = 0 := by
  obtain ⟨base, cl, hbase, hprocs⟩ := trace_iteration_procs main st e
  have hb_nd : (pids base).Nodup := by
    rcases hbase with ⟨hb, _⟩ | ⟨hnot, hb, _⟩
    · rw [hb]; exact hnd
    · rw [hb, pids_append_new]
      exact List.Nodup.append hnd (List.nodup_singleton _) (by simpa [new_record] using hnot)
  have hb_tgid : ∀ r ∈ base, r.pid = p → r.tgid = 0 := by
    intro r hr hp
    rcases hbase with ⟨hb, _⟩ | ⟨_, hb, _⟩
    · rw [hb] at hr; exact hinv r hr hp
    · rw [hb] at hr
      rcases List.mem_append.mp hr with h | h
      · exact hinv r h hp
      · rw [List.mem_singleton.mp h]; rfl
  rcases hprocs with ⟨hp, _⟩ | ⟨_, hp, _, _, h1, h2, h3⟩
  · rw [hp]; exact hb_tgid
  · rw [hp]
    intro r hr hrp
    rcases mem_update_first hb_nd hr with ⟨hr1, _⟩ | ⟨c, hc, hcp, rfl⟩
    · exact hb_tgid r hr1 hrp
    · have hcp2 : c.pid = p := by rw [← (grab_final_stats_frame e c).1]; exact hrp
      rw [grab_final_stats_tgid e c (he (hcp.symm.trans hcp2) h1 h2 h3)]
      exact hb_tgid c hc hcp2

/-- A run keeps `tgid` 0 in the record of the pid `p` when no pre-exit trap
of `p` can read a `Tgid` line. -/
lemma procParentTrace_tgid_unread (main : Int) (p : Int) (events : List WaitEvent)
    (st : TraceState) (hnd : (pids st.procs).Nodup)
    (hinv : ∀ r ∈ st.procs, r.pid = p → r.tgid = 0)
    (he : ∀ e ∈ events, e.cpid = p → WIFSTOPPED e.status = true →
      WSTOPSIG e.status = SIGTRAP → e.status / 65536 = PTRACE_EVENT_EXIT →
      (e.statusFile.accessRet < 0 ∨ e.statusFile.fopenOk = false ∨
        ∀ line ∈ e.statusFile.lines, startswith line "Tgid" = false)) :
    ∀ r ∈ (procParentTrace main st events).2.procs, r.pid = p → r.tgid = 0 := by
  induction events generalizing st with
  | nil => exact hinv
  | cons e rest ih =>
    have hnd1 := trace_iteration_nodup main st e hnd
    have hstep := trace_iteration_tgid_unread main st e p hnd hinv
      (he e (List.mem_cons_self _ _))
    unfold procParentTrace
    cases hflow : trace_iteration main st e with
    | again st1 =>
      rw [hflow] at hstep hnd1
      exact ih st1 hnd1 hstep (fun x hx => he x (List.mem_cons_of_mem _ hx))
    | leave ret st1 =>
      rw [hflow] at hstep
      exact hstep

/-! ## The claims -/

/-- C9: the `MessageType` discriminators are Command=1, Result=2, Shutdown=3,
Registration=4, Hostrank=5, IOData=6; they are pairwise distinct and the
values taken are exactly the integers from 1 to 6, so none is 0 or 7. -/
theorem MessageType_values_exact :
    MessageType.COMMAND.value = 1 ∧ MessageType.RESULT.value = 2 ∧
    MessageType.SHUTDOWN.value = 3 ∧ MessageType.REGISTRATION.value = 4 ∧
    MessageType.HOSTRANK.value = 5 ∧ MessageType.IODATA.value = 6 ∧
    Function.Injective MessageType.value ∧
    (∀ n : Int, (∃ t : MessageType, t.value = n) ↔ (1 ≤ n ∧ n ≤ 6)) ∧
    (∀ t : MessageType, t.value ≠ 0 ∧ t.value ≠ 7) := by
  refine ⟨rfl, rfl, rfl, rfl, rfl, rfl, ?_, ?_, ?_⟩
  · intro a b h
    cases a <;> cases b <;> first | rfl | (exact absurd h (by decide))
  · intro n
    constructor
    · rintro ⟨t, rfl⟩
      cases t <;> decide
    · rintro ⟨h1, h2⟩
      have h : n = 1 ∨ n = 2 ∨ n = 3 ∨ n = 4 ∨ n = 5 ∨ n = 6 := by omega
      rcases h with h | h | h | h | h | h
      · exact ⟨MessageType.COMMAND, h.symm⟩
      · exact ⟨MessageType.RESULT, h.symm⟩
      · exact ⟨MessageType.SHUTDOWN, h.symm⟩
      · exact ⟨MessageType.REGISTRATION, h.symm⟩
      · exact ⟨MessageType.HOSTRANK, h.symm⟩
      · exact ⟨MessageType.IODATA, h.symm⟩
  · intro t
    cases t <;> decide

/-- C7: for every record list and pid, `proc_add` with a successful
allocation yields the list followed by exactly one new record at the end (the
records before it and their order unchanged) and returns the position of that
record; the new record has the given pid, every other numeric field zero and
`exe` unset.  When the allocation fails it yields nothing. -/
theorem proc_add_appends_zeroed_record (list : List ProcInfo) (pid : Int) :
    proc_add list pid true =
      some (list ++ [{ pid := pid, ppid := 0, tgid := 0, exe := none, start := 0,
                       stop := 0, utime := 0, stime := 0, vmpeak := 0, rsspeak := 0,
                       rchar := 0, wchar := 0, syscr := 0, syscw := 0, read_bytes := 0,
                       write_bytes := 0, cancelled_write_bytes := 0 }], list.length) ∧
    proc_add list pid false = none := by
  constructor
  · rw [proc_add_eq]; rfl
  · rw [proc_add_eq]; rfl

/-- C2: for every record list, `printXMLProcInfo` appends to the stream the
`<proc .../>` elements of exactly the records whose `tgid` equals their `pid`,
one each and in the order of the list (the order-preserving filter of the
list), and returns 0. -/
theorem printXMLProcInfo_emits_leaders_in_order (out : List ProcElement) (indent : Int)
    (procs : List ProcInfo) :
    (printXMLProcInfo out indent procs).1 =
      out ++ (procs.filter (fun i => decide (i.tgid = i.pid))).map (fprintf_proc indent) ∧
    (printXMLProcInfo out indent procs).2 = 0 := by
  rw [printXMLProcInfo_eq]
  exact ⟨rfl, rfl⟩

/-- C3: starting from an empty record list, after `procParentTrace` has
processed any sequence of wait events the pids of the records are pairwise
distinct; the pids of the elements `printXMLProcInfo` emits for them are
pairwise distinct too, and every emitted element is that of a record of the
list with `tgid == pid`. -/
theorem procParentTrace_pids_pairwise_distinct (main : Int) (main_status : Int)
    (main_usage : Rusage) (events : List WaitEvent) (indent : Int) :
    (pids (procParentTrace main
      (initial_state main_status main_usage) events).2.procs).Nodup ∧
    ((printXMLProcInfo [] indent (procParentTrace main
      (initial_state main_status main_usage) events).2.procs).1.map (fun el => el.pid)).Nodup ∧
    ∀ el ∈ (printXMLProcInfo [] indent (procParentTrace main
      (initial_state main_status main_usage) events).2.procs).1,
      ∃ r ∈ (procParentTrace main
        (initial_state main_status main_usage) events).2.procs,
        r.tgid = r.pid ∧ el = fprintf_proc indent r := by
  have hnd := procParentTrace_nodup main events
    (initial_state main_status main_usage) (by simp [pids, initial_state])
  refine ⟨hnd, ?_, ?_⟩
  · rw [printXMLProcInfo_eq]
    simp only [List.nil_append, List.map_map]
    have hsub : List.Sublist
        (List.map ((fun el => el.pid) ∘ fprintf_proc indent)
          (List.filter (fun i => decide (i.tgid = i.pid))
            (procParentTrace main
              (initial_state main_status main_usage) events).2.procs))
        (pids (procParentTrace main
              (initial_state main_status main_usage) events).2.procs) := by
      have h1 : ((fun el : ProcElement => el.pid) ∘ fprintf_proc indent)
          = (fun r : ProcInfo => r.pid) := by
        funext r; rfl
      rw [h1]
      exact List.Sublist.map _ (List.filter_sublist _)
    exact List.Nodup.sublist hsub hnd
  · intro el hel
    rw [printXMLProcInfo_eq] at hel
    simp only [List.nil_append, List.mem_map, List.mem_filter, decide_eq_true_eq] at hel
    obtain ⟨r, ⟨hr, ht⟩, rfl⟩ := hel
    exact ⟨r, hr, ht, rfl⟩

/-- The counterexample to C1 as stated: the first stop of the main child
(pid 100, wait status `0x057f`: stopped by SIGTRAP, the stop the kernel
reports after `PTRACE_TRACEME` and `execve`).  SIGTRAP is neither SIGSTOP nor
SIGTSTP, yet the child is continued with signal 0, not with SIGTRAP. -/
theorem sigtrap_stop_is_continued_with_zero :
    WIFSTOPPED 1407 = true ∧ WSTOPSIG 1407 = SIGTRAP ∧
    SIGTRAP ≠ SIGSTOP ∧ SIGTRAP ≠ SIGTSTP ∧ SIGTRAP ≠ 0 ∧
    (trace_iteration 100 empty_state (sample_event 100 1407 10 11 0)).state.calls =
      [PtraceCall.setoptions 100 trace_options, PtraceCall.cont 100 0] ∧
    PtraceCall.cont 100 SIGTRAP ∉
      (trace_iteration 100 empty_state (sample_event 100 1407 10 11 0)).state.calls := by
  decide

/-- C1: in one iteration of the event loop that gets a stop event from
`wait4` and has the record of the pid at hand (found, or created with the
trace options set), the `ptrace` requests issued are at most
`PTRACE_SETOPTIONS` and `PTRACE_GETEVENTMSG` followed by one `PTRACE_CONT` for
the pid, whose signal is 0 when the stop signal is SIGSTOP or SIGTSTP, the
stop signal itself when it is none of SIGSTOP, SIGTSTP, SIGTRAP, and 0 when it
is SIGTRAP (unless the pre-exit trap of the main pid fails to fetch the event
message, which ends the trace). -/
theorem stop_signal_masked_or_forwarded (main : Int) (st : TraceState) (e : WaitEvent)
    (hwait : 0 ≤ e.cpid)
    (hsetup : proc_lookup st.procs e.cpid = none → e.callocOk = true ∧ e.setoptionsRet = 0)
    (hstop : WIFSTOPPED e.status = true) :
    ∃ pre : List PtraceCall,
      (∀ c ∈ pre, c = PtraceCall.setoptions e.cpid trace_options ∨
        c = PtraceCall.geteventmsg e.cpid) ∧
      (WSTOPSIG e.status = SIGSTOP ∨ WSTOPSIG e.status = SIGTSTP →
        (trace_iteration main st e).state.calls =
          st.calls ++ pre ++ [PtraceCall.cont e.cpid 0]) ∧
      (WSTOPSIG e.status ≠ SIGSTOP → WSTOPSIG e.status ≠ SIGTSTP →
        WSTOPSIG e.status ≠ SIGTRAP →
        (trace_iteration main st e).state.calls =
          st.calls ++ pre ++ [PtraceCall.cont e.cpid (WSTOPSIG e.status)]) ∧
      (WSTOPSIG e.status = SIGTRAP →
        ¬ (e.status / 65536 = PTRACE_EVENT_EXIT ∧ e.cpid = main ∧ e.eventmsgRet < 0) →
        (trace_iteration main st e).state.calls =
          st.calls ++ pre ++ [PtraceCall.cont e.cpid 0]) := by
  have hnn : ¬ e.cpid < 0 := not_lt.mpr hwait
  -- the requests of the second half of the body, for any memory it starts from
  have key : ∀ (s0 : TraceState) (child : Nat),
      (handle_status main s0 e child).state.calls =
        s0.calls ++ status_calls main e.status e.cpid e.eventmsgRet :=
    fun s0 child => (handle_status_summary main s0 e child).2
  have hpost : ∃ post : List PtraceCall,
      (∀ c ∈ post, c = PtraceCall.geteventmsg e.cpid) ∧
      (WSTOPSIG e.status = SIGSTOP ∨ WSTOPSIG e.status = SIGTSTP →
        status_calls main e.status e.cpid e.eventmsgRet = post ++ [PtraceCall.cont e.cpid 0]) ∧
      (WSTOPSIG e.status ≠ SIGSTOP → WSTOPSIG e.status ≠ SIGTSTP →
        WSTOPSIG e.status ≠ SIGTRAP →
        status_calls main e.status e.cpid e.eventmsgRet =
          post ++ [PtraceCall.cont e.cpid (WSTOPSIG e.status)]) ∧
      (WSTOPSIG e.status = SIGTRAP →
        ¬ (e.status / 65536 = PTRACE_EVENT_EXIT ∧ e.cpid = main ∧ e.eventmsgRet < 0) →
        status_calls main e.status e.cpid e.eventmsgRet = post ++ [PtraceCall.cont e.cpid 0]) := by
    unfold status_calls
    rw [if_pos hstop]
    by_cases htrap : WSTOPSIG e.status = SIGTRAP
    · rw [if_pos htrap]
      by_cases hexit : e.status / 65536 = PTRACE_EVENT_EXIT ∧ e.cpid = main
      · rw [if_pos hexit]
        refine ⟨[PtraceCall.geteventmsg e.cpid], by simp, ?_, ?_, ?_⟩
        · intro h; rw [htrap] at h; exact absurd h (by decide)
        · intro _ _ h; exact absurd htrap h
        · intro _ hok
          have hmsg : ¬ e.eventmsgRet < 0 := fun h => hok ⟨hexit.1, hexit.2, h⟩
          rw [if_neg hmsg]
          rfl
      · rw [if_neg hexit]
        refine ⟨[], by simp, ?_, ?_, ?_⟩
        · intro h; rw [htrap] at h; exact absurd h (by decide)
        · intro _ _ h; exact absurd htrap h
        · intro _ _; rfl
    · rw [if_neg htrap]
      refine ⟨[], by simp, ?_, ?_, ?_⟩
      · intro h; rw [if_pos h]; rfl
      · intro h1 h2 _
        have h : ¬ (WSTOPSIG e.status = SIGSTOP ∨ WSTOPSIG e.status = SIGTSTP) := by
          rintro (h | h)
          · exact h1 h
          · exact h2 h
        rw [if_neg h]; rfl
      · intro h; exact absurd h htrap
  obtain ⟨post, hpost, h1, h2, h3⟩ := hpost
  unfold trace_iteration
  rw [if_neg hnn]
  cases hl : proc_lookup st.procs e.cpid with
  | some child =>
    dsimp only
    rw [key]
    refine ⟨post, fun c hc => Or.inr (hpost c hc), ?_, ?_, ?_⟩
    · intro h; rw [h1 h, List.append_assoc]
    · intro ha hb hc; rw [h2 ha hb hc, List.append_assoc]
    · intro ha hb; rw [h3 ha hb, List.append_assoc]
  | none =>
    obtain ⟨hc, hs⟩ := hsetup hl
    dsimp only
    rw [proc_add_eq, hc]
    simp only [if_true]
    have hs2 : ¬ e.setoptionsRet ≠ 0 := fun h => h hs
    rw [if_neg hs2, key]
    refine ⟨PtraceCall.setoptions e.cpid trace_options :: post, ?_, ?_, ?_, ?_⟩
    · intro c hc
      rcases List.mem_cons.mp hc with h | h
      · exact Or.inl h
      · exact Or.inr (hpost c h)
    · intro h; rw [h1 h]; simp
    · intro ha hb hc; rw [h2 ha hb hc]; simp
    · intro ha hb; rw [h3 ha hb]; simp

/-- The witness of C1: the main child (pid 100), seen for the first time,
stopped by SIGSTOP (wait status `0x137f`); it is continued with signal 0. -/
theorem stop_signal_masked_or_forwarded_witness :
    (0 : Int) ≤ (sample_event 100 4991 10 11 0).cpid ∧
    WIFSTOPPED (sample_event 100 4991 10 11 0).status = true ∧
    WSTOPSIG (sample_event 100 4991 10 11 0).status = SIGSTOP ∧
    ∃ pre : List PtraceCall,
      (∀ c ∈ pre, c = PtraceCall.setoptions 100 trace_options ∨
        c = PtraceCall.geteventmsg 100) ∧
      (trace_iteration 100 empty_state (sample_event 100 4991 10 11 0)).state.calls =
        empty_state.calls ++ pre ++ [PtraceCall.cont 100 0] := by
  obtain ⟨pre, hpre, h1, _, _⟩ := stop_signal_masked_or_forwarded 100 empty_state
    (sample_event 100 4991 10 11 0) (by decide) (fun _ => by decide) (by decide)
  exact ⟨by decide, by decide, by decide, pre, hpre, h1 (Or.inl (by decide))⟩

/-- C4, evaluated on the code: when `wait4` fails with `ECHILD` (an error
other than `EINTR`) `procParentWait` stores the sentinel -42 but does not
return: it calls `wait4` again.  After any number `n + 1` of such failures it
has made `n + 1` calls and is still in the loop; and a later successful
`wait4` overwrites the sentinel, so that the status of that wait is returned
and not -42. -/
theorem procParentWait_waits_again_after_error (n : Nat) :
    procParentWait wait_start (List.replicate (n + 1) wait_echild) =
      (none, { main_status := -42, main_usage := { words := [] }, waits := n + 1 }) ∧
    procParentWait wait_start
        [wait_echild, { ret := 100, errno := 0, status := 256, usage := { words := [7] } }] =
      (some 256, { main_status := 256, main_usage := { words := [7] }, waits := 2 }) := by
  constructor
  · have gen : ∀ (k : Nat) (st : WaitState),
        procParentWait st (List.replicate (k + 1) wait_echild) =
          (none, { main_status := -42, main_usage := st.main_usage, waits := st.waits + (k + 1) }) := by
      intro k
      induction k with
      | zero =>
        intro st
        simp [procParentWait, wait_echild, ECHILD, EINTR]
      | succ k ih =>
        intro st
        rw [List.replicate_succ, procParentWait]
        have h1 : wait_echild.ret < 0 := by decide
        have h2 : wait_echild.errno ≠ EINTR := by decide
        simp only [h1, h2, if_true, ne_eq, not_false_eq_true]
        rw [ih]
        simp only [Prod.mk.injEq, true_and, WaitState.mk.injEq]
        omega
    have h := gen n wait_start
    simpa [wait_start] using h
  · decide

/-- C5: in one iteration of the event loop `main_status` is written only on
a pre-exit trap (stop with SIGTRAP and event code `status >> 16` equal to
`PTRACE_EVENT_EXIT`) of the main pid; when that trap is handled (the wait
succeeded, the record is at hand) and `PTRACE_GETEVENTMSG` succeeds,
`main_status` becomes the event data word converted to `int` (the word itself
when it fits); every other event leaves `main_status` unchanged, and so does a
whole run without a pre-exit trap of the main pid. -/
theorem main_status_written_only_on_main_exit_trap (main : Int) (st : TraceState)
    (e : WaitEvent) :
    (¬ (WIFSTOPPED e.status = true ∧ WSTOPSIG e.status = SIGTRAP ∧
          e.status / 65536 = PTRACE_EVENT_EXIT ∧ e.cpid = main) →
      (trace_iteration main st e).state.main_status = st.main_status) ∧
    (0 ≤ e.cpid →
      (proc_lookup st.procs e.cpid = none → e.callocOk = true ∧ e.setoptionsRet = 0) →
      WIFSTOPPED e.status = true → WSTOPSIG e.status = SIGTRAP →
      e.status / 65536 = PTRACE_EVENT_EXIT → e.cpid = main → 0 ≤ e.eventmsgRet →
      (trace_iteration main st e).state.main_status = int_of_ulong e.eventmsg ∧
      (e.eventmsg < 2147483648 →
        (trace_iteration main st e).state.main_status = (e.eventmsg : Int))) ∧
    ((trace_iteration main st e).state.main_status = st.main_status ∨
      (trace_iteration main st e).state.main_status = int_of_ulong e.eventmsg) ∧
    (∀ events : List WaitEvent,
      (∀ ev ∈ events, ¬ (WIFSTOPPED ev.status = true ∧ WSTOPSIG ev.status = SIGTRAP ∧
          ev.status / 65536 = PTRACE_EVENT_EXIT ∧ ev.cpid = main)) →
      (procParentTrace main st events).2.main_status = st.main_status) := by
  refine ⟨?_, ?_, ?_, ?_⟩
  · intro h
    rw [trace_iteration_main_status, if_neg]
    exact fun hh => h ⟨hh.2.2.1, hh.2.2.2.1, hh.2.2.2.2.1, hh.2.2.2.2.2.1⟩
  · intro h0 hs h1 h2 h3 h4 h5
    have hw : (trace_iteration main st e).state.main_status = int_of_ulong e.eventmsg := by
      rw [trace_iteration_main_status, if_pos ⟨h0, hs, h1, h2, h3, h4, h5⟩]
    refine ⟨hw, fun hfit => ?_⟩
    rw [hw]
    unfold int_of_ulong wrap_int
    dsimp only
    have hm : (e.eventmsg : Int) % 4294967296 = (e.eventmsg : Int) := by omega
    rw [hm, if_pos (by omega)]
  · rw [trace_iteration_main_status]
    split_ifs
    · exact Or.inr rfl
    · exact Or.inl rfl
  · intro events
    induction events generalizing st with
    | nil => intro _; rfl
    | cons ev rest ih =>
      intro hall
      have hev := hall ev (List.mem_cons_self _ _)
      have hstep : (trace_iteration main st ev).state.main_status = st.main_status := by
        rw [trace_iteration_main_status, if_neg]
        exact fun hh => hev ⟨hh.2.2.1, hh.2.2.2.1, hh.2.2.2.2.1, hh.2.2.2.2.2.1⟩
      unfold procParentTrace
      cases hflow : trace_iteration main st ev with
      | again st1 =>
        rw [hflow] at hstep
        dsimp only
        rw [ih st1 (fun x hx => hall x (List.mem_cons_of_mem _ hx))]
        exact hstep
      | leave ret st1 =>
        rw [hflow] at hstep
        exact hstep

/-- The witness of C5: the pre-exit trap of the main child (pid 100, wait
status `0x6057f`) with event message 139 sets `main_status` to 139, while the
same trap of another pid (101) leaves it at 0. -/
theorem main_status_written_only_on_main_exit_trap_witness :
    (trace_iteration 100 empty_state (sample_event 100 394623 10 11 139)).state.main_status
      = 139 ∧
    (trace_iteration 100 empty_state (sample_event 101 394623 10 11 139)).state.main_status
      = empty_state.main_status := by
  constructor
  · exact ((main_status_written_only_on_main_exit_trap 100 empty_state
      (sample_event 100 394623 10 11 139)).2.1 (by decide) (fun _ => by decide) (by decide)
      (by decide) (by decide) (by decide) (by decide)).2 (by decide)
  · exact (main_status_written_only_on_main_exit_trap 100 empty_state
      (sample_event 101 394623 10 11 139)).1 (by decide)

/-- C6: the answers of the four `/proc` harvesters never decide the control
flow of an iteration nor the `ptrace` requests issued; on a pre-exit trap whose
`ptrace` requests succeed the child is continued (with signal 0) and the loop
goes on, whatever the harvesters returned.  A newly seen pid whose record
cannot be set up (`PTRACE_SETOPTIONS` fails, or the allocation does) makes
`procParentTrace` return -1, and so does a failed wait whose `errno` is
neither `EINTR` nor `ECHILD`; a failed wait with `EINTR` is retried with the
memory unchanged, and one with `ECHILD` ends the loop with return value 0. -/
theorem harvest_failures_local_setup_and_wait_failures_fatal (main : Int) (st : TraceState)
    (e : WaitEvent) (rest : List WaitEvent) :
    (∀ (x : ExeLink) (sf : ProcFile) (tf : StatFile) (io : ProcFile),
      (trace_iteration main st
          { e with exeLink := x, statusFile := sf, statFile := tf, ioFile := io }).ret =
        (trace_iteration main st e).ret ∧
      (trace_iteration main st
          { e with exeLink := x, statusFile := sf, statFile := tf, ioFile := io }).state.calls =
        (trace_iteration main st e).state.calls) ∧
    (0 ≤ e.cpid →
      (proc_lookup st.procs e.cpid = none → e.callocOk = true ∧ e.setoptionsRet = 0) →
      WIFSTOPPED e.status = true → WSTOPSIG e.status = SIGTRAP →
      e.status / 65536 = PTRACE_EVENT_EXIT →
      (e.cpid = main → 0 ≤ e.eventmsgRet) → e.contRet = 0 →
      ∃ st1, trace_iteration main st e = Flow.again st1 ∧
        st1.calls.getLast? = some (PtraceCall.cont e.cpid 0) ∧
        procParentTrace main st (e :: rest) = procParentTrace main st1 rest) ∧
    (0 ≤ e.cpid → proc_lookup st.procs e.cpid = none →
      (e.callocOk = false ∨ e.setoptionsRet ≠ 0) →
      (procParentTrace main st (e :: rest)).1 = some (-1)) ∧
    (e.cpid < 0 → e.errno ≠ EINTR → e.errno ≠ ECHILD →
      (procParentTrace main st (e :: rest)).1 = some (-1)) ∧
    (e.cpid < 0 → e.errno = EINTR →
      procParentTrace main st (e :: rest) = procParentTrace main st rest) ∧
    (e.cpid < 0 → e.errno = ECHILD →
      procParentTrace main st (e :: rest) = (some 0, st)) := by
  refine ⟨fun x sf tf io => trace_iteration_control main st e x sf tf io, ?_, ?_, ?_, ?_, ?_⟩
  · intro h0 hs h1 h2 h3 h4 h5
    rcases trace_iteration_shape main st e with ⟨hneg, _⟩ | ⟨_, hl, hc, _⟩ |
        ⟨_, hl, _, hso, _⟩ | ⟨_, _, s0, child, h, _⟩
    · exact absurd h0 (not_le.mpr hneg)
    · have := (hs hl).1
      rw [hc] at this
      cases this
    · exact absurd (hs hl).2 hso
    · obtain ⟨st1, hst1, hlast⟩ := handle_status_exit_trap main s0 e child h1 h2 h3 h4 h5
      refine ⟨st1, h.trans hst1, hlast, ?_⟩
      rw [procParentTrace, h.trans hst1]
  · intro h0 hl hfail
    rcases trace_iteration_shape main st e with ⟨hneg, _⟩ | ⟨_, _, _, h⟩ |
        ⟨_, _, _, _, s0, h, _⟩ | ⟨_, hs, _⟩
    · exact absurd h0 (not_le.mpr hneg)
    · rw [procParentTrace, h]
    · rw [procParentTrace, h]
    · obtain ⟨hc, hso⟩ := hs hl
      rcases hfail with hf | hf
      · rw [hc] at hf; cases hf
      · exact absurd hso hf
  · intro hneg h1 h2
    rw [procParentTrace]
    unfold trace_iteration
    rw [if_pos hneg, if_neg h2, if_neg h1]
  · intro hneg h1
    have h2 : e.errno ≠ ECHILD := by rw [h1]; decide
    rw [procParentTrace]
    unfold trace_iteration
    rw [if_pos hneg, if_neg h2, if_pos h1]
  · intro hneg h1
    rw [procParentTrace]
    unfold trace_iteration
    rw [if_pos hneg, if_pos h1]

/-- The witness of C6: at the pre-exit trap of the main child (pid 100) all
four harvesters fail (each returns -1), yet the iteration ends with the child
continued and the loop going on; a first wake-up whose `PTRACE_SETOPTIONS`
fails, and a `wait4` failing with `EINVAL` (22), make the function return -1;
`EINTR` is retried and `ECHILD` returns 0. -/
theorem harvest_failures_local_setup_and_wait_failures_fatal_witness :
    (proc_read_exe (failed_harvest_event 100 394623 10 11 0).exeLink
        (new_record 100 10)).1 = -1 ∧
    (proc_read_meminfo (failed_harvest_event 100 394623 10 11 0).statusFile
        (new_record 100 10)).1 = -1 ∧
    (proc_read_statinfo (failed_harvest_event 100 394623 10 11 0).statFile
        (new_record 100 10)).1 = -1 ∧
    (proc_read_io (failed_harvest_event 100 394623 10 11 0).ioFile
        (new_record 100 10)).1 = -1 ∧
    (∃ st1, trace_iteration 100 empty_state (failed_harvest_event 100 394623 10 11 0) =
        Flow.again st1 ∧
      st1.calls.getLast? = some (PtraceCall.cont 100 0) ∧
      procParentTrace 100 empty_state
          [failed_harvest_event 100 394623 10 11 0, failed_wait ECHILD] =
        procParentTrace 100 st1 [failed_wait ECHILD]) ∧
    (procParentTrace 100 empty_state
        [{ sample_event 100 1407 10 11 0 with setoptionsRet := -1 }, failed_wait ECHILD]).1
      = some (-1) ∧
    (procParentTrace 100 empty_state [failed_wait 22, failed_wait ECHILD]).1 = some (-1) ∧
    procParentTrace 100 empty_state [failed_wait EINTR, failed_wait ECHILD] =
      procParentTrace 100 empty_state [failed_wait ECHILD] ∧
    procParentTrace 100 empty_state [failed_wait ECHILD, failed_wait 22] =
      (some 0, empty_state) := by
  refine ⟨by decide, by decide, by decide, by decide, ?_, ?_, ?_, ?_, ?_⟩
  · exact (harvest_failures_local_setup_and_wait_failures_fatal 100 empty_state
      (failed_harvest_event 100 394623 10 11 0) [failed_wait ECHILD]).2.1
      (by decide) (fun _ => by decide) (by decide) (by decide) (by decide)
      (fun _ => by decide) (by decide)
  · exact (harvest_failures_local_setup_and_wait_failures_fatal 100 empty_state
      { sample_event 100 1407 10 11 0 with setoptionsRet := -1 } [failed_wait ECHILD]).2.2.1
      (by decide) (by decide) (Or.inr (by decide))
  · exact (harvest_failures_local_setup_and_wait_failures_fatal 100 empty_state
      (failed_wait 22) [failed_wait ECHILD]).2.2.2.1 (by decide) (by decide) (by decide)
  · exact (harvest_failures_local_setup_and_wait_failures_fatal 100 empty_state
      (failed_wait EINTR) [failed_wait ECHILD]).2.2.2.2.1 (by decide) (by decide)
  · exact (harvest_failures_local_setup_and_wait_failures_fatal 100 empty_state
      (failed_wait ECHILD) [failed_wait 22]).2.2.2.2.2 (by decide) (by decide)

/-- The counterexample to C8 as stated: the main child (pid 100) is first seen
when the wall clock reads 10 s; the clock is then set back, and at the pre-exit
trap it reads 5 s.  The record has its `stop` stamped and `start > stop`. -/
theorem clock_set_back_gives_start_after_stop :
    (procParentTrace 100 empty_state
        [sample_event 100 1407 10 10 0, sample_event 100 394623 5 5 0]).2.clock = [10, 5] ∧
    (procParentTrace 100 empty_state
        [sample_event 100 1407 10 10 0, sample_event 100 394623 5 5 0]).2.stop_set = [100] ∧
    (procParentTrace 100 empty_state
        [sample_event 100 1407 10 10 0, sample_event 100 394623 5 5 0]).2.procs.map
          (fun r => (r.pid, r.start, r.stop)) = [(100, 10, 5)] ∧
    ¬ ∀ r ∈ (procParentTrace 100 empty_state
          [sample_event 100 1407 10 10 0, sample_event 100 394623 5 5 0]).2.procs,
        r.pid ∈ (procParentTrace 100 empty_state
          [sample_event 100 1407 10 10 0, sample_event 100 394623 5 5 0]).2.stop_set →
        r.start ≤ r.stop := by
  decide!

/-- C8: if the wall-clock readings `get_time` returned during the run, in
the order they were taken, never decrease, then after `procParentTrace` has
processed any sequence of wait events from an empty record list, every record
whose `stop` has been set (a pre-exit trap was handled for its pid) has
`start ≤ stop`. -/
theorem start_le_stop_when_clock_never_decreases (main : Int) (main_status : Int)
    (main_usage : Rusage) (events : List WaitEvent)
    (hclock : (procParentTrace main (initial_state main_status main_usage)
      events).2.clock.Pairwise (fun a b => a ≤ b)) :
    ∀ r ∈ (procParentTrace main (initial_state main_status main_usage) events).2.procs,
      r.pid ∈ (procParentTrace main (initial_state main_status main_usage)
        events).2.stop_set →
      r.start ≤ r.stop := by
  have hinit : LoopInv (initial_state main_status main_usage) := by
    refine ⟨by simp [pids, initial_state], ?_, ?_, ?_⟩ <;> simp [initial_state]
  exact (procParentTrace_inv main events _ hinit hclock).2.2.2

/-- The witness of C8: the main child (pid 100) is first seen at 10 s and
its pre-exit trap is handled at 13 s; the readings taken are 10 and 13. -/
theorem start_le_stop_when_clock_never_decreases_witness :
    (procParentTrace 100 (initial_state 0 { words := [] })
        [sample_event 100 1407 10 11 0, sample_event 100 394623 12 13 0]).2.clock = [10, 13] ∧
    (procParentTrace 100 (initial_state 0 { words := [] })
        [sample_event 100 1407 10 11 0, sample_event 100 394623 12 13 0]).2.stop_set = [100] ∧
    ∀ r ∈ (procParentTrace 100 (initial_state 0 { words := [] })
        [sample_event 100 1407 10 11 0, sample_event 100 394623 12 13 0]).2.procs,
      r.pid ∈ (procParentTrace 100 (initial_state 0 { words := [] })
        [sample_event 100 1407 10 11 0, sample_event 100 394623 12 13 0]).2.stop_set →
      r.start ≤ r.stop :=
  ⟨by decide!, by decide,
    start_le_stop_when_clock_never_decreases 100 0 { words := [] }
      [sample_event 100 1407 10 11 0, sample_event 100 394623 12 13 0] (by decide!)⟩

/-- C10: after `procParentTrace` has processed any sequence of wait events
from an empty record list, a record with a non-zero pid whose `tgid` was never
harvested has `tgid` 0 and `printXMLProcInfo` emits no element with its pid,
in both cases of "never harvested": (1) no pre-exit trap was handled for its
pid; (2) at every pre-exit trap of its pid `/proc/[pid]/status` was missing,
could not be opened, or had no line beginning with `Tgid`.  Further, a
pre-exit harvest that finds the `status` file missing or without a `Tgid` line
leaves `tgid` as it was; in any record list a record with non-zero pid and
`tgid` 0 contributes nothing to the output; and there is a run (the main child
100 stops after `execve`, reaches its pre-exit trap while its `status` file is
missing, then no child remains) that returns 0 with a record for the main
child and emits no element. -/
theorem record_with_unharvested_tgid_is_not_emitted :
    (∀ (main main_status : Int) (main_usage : Rusage) (events : List WaitEvent) (indent : Int),
      ∀ r ∈ (procParentTrace main
          (initial_state main_status main_usage) events).2.procs,
        r.pid ≠ 0 →
        r.pid ∉ (procParentTrace main
          (initial_state main_status main_usage) events).2.stop_set →
        r.tgid = 0 ∧
        ∀ el ∈ (printXMLProcInfo [] indent (procParentTrace main
          (initial_state main_status main_usage) events).2.procs).1, el.pid ≠ r.pid) ∧
    (∀ (main main_status : Int) (main_usage : Rusage) (events : List WaitEvent) (indent : Int)
        (p : Int), p ≠ 0 →
      (∀ e ∈ events, e.cpid = p → WIFSTOPPED e.status = true →
        WSTOPSIG e.status = SIGTRAP → e.status / 65536 = PTRACE_EVENT_EXIT →
        (e.statusFile.accessRet < 0 ∨ e.statusFile.fopenOk = false ∨
          ∀ line ∈ e.statusFile.lines, startswith line "Tgid" = false)) →
      (∀ r ∈ (procParentTrace main
          (initial_state main_status main_usage) events).2.procs,
        r.pid = p → r.tgid = 0) ∧
      ∀ el ∈ (printXMLProcInfo [] indent (procParentTrace main
          (initial_state main_status main_usage) events).2.procs).1, el.pid ≠ p) ∧
    (∀ (e : WaitEvent) (c : ProcInfo),
      (e.statusFile.accessRet < 0 ∨
        ∀ line ∈ e.statusFile.lines, startswith line "Tgid" = false) →
      (grab_final_stats e c).tgid = c.tgid) ∧
    (∀ (out : List ProcElement) (indent : Int) (before : List ProcInfo) (r : ProcInfo)
        (after : List ProcInfo), r.pid ≠ 0 → r.tgid = 0 →
      printXMLProcInfo out indent (before ++ r :: after) =
        printXMLProcInfo out indent (before ++ after)) ∧
    (procParentTrace 100 empty_state
        [sample_event 100 1407 10 11 0, missing_status_event 100 394623 12 13 0,
          failed_wait ECHILD]).1 = some 0 ∧
    pids (procParentTrace 100 empty_state
        [sample_event 100 1407 10 11 0, missing_status_event 100 394623 12 13 0,
          failed_wait ECHILD]).2.procs = [100] ∧
    (printXMLProcInfo [] 0 (procParentTrace 100 empty_state
        [sample_event 100 1407 10 11 0, missing_status_event 100 394623 12 13 0,
          failed_wait ECHILD]).2.procs).1 = [] := by
  refine ⟨?_, ?_, ?_, ?_, by decide, by decide, by decide⟩
  · intro main main_status main_usage events indent r hr hpid hnot
    have hinv := procParentTrace_tgid_inv main events
      (initial_state main_status main_usage)
      ⟨by simp [pids, initial_state], by simp [initial_state]⟩
    refine ⟨hinv.2 r hr hnot, ?_⟩
    intro el hel heq
    rw [printXMLProcInfo_eq] at hel
    simp only [List.nil_append, List.mem_map, List.mem_filter, decide_eq_true_eq] at hel
    obtain ⟨r1, ⟨hr1, ht⟩, rfl⟩ := hel
    have hp : r1.pid = r.pid := heq
    have h0 : r1.tgid = 0 := hinv.2 r1 hr1 (by rw [hp]; exact hnot)
    apply hpid
    rw [← hp, ← ht, h0]
  · intro main main_status main_usage events indent p hp he
    have hinv := procParentTrace_tgid_unread main p events
      (initial_state main_status main_usage)
      (by simp [pids, initial_state]) (by simp [initial_state]) he
    refine ⟨hinv, ?_⟩
    intro el hel heq
    rw [printXMLProcInfo_eq] at hel
    simp only [List.nil_append, List.mem_map, List.mem_filter, decide_eq_true_eq] at hel
    obtain ⟨r1, ⟨hr1, ht⟩, rfl⟩ := hel
    have hp1 : r1.pid = p := heq
    have h0 : r1.tgid = 0 := hinv r1 hr1 hp1
    apply hp
    rw [← hp1, ← ht, h0]
  · intro e c h
    exact grab_final_stats_tgid e c (by
      rcases h with h | h
      · exact Or.inl h
      · exact Or.inr (Or.inr h))
  · intro out indent before r after hpid htgid
    have hne : ¬ r.tgid = r.pid := by
      rw [htgid]
      exact fun h => hpid h.symm
    rw [printXMLProcInfo_eq, printXMLProcInfo_eq]
    simp [List.filter_append, List.filter_cons, hne]

/-- The witness of C10.  Case (1): in the run where pid 100 only stops after
`execve` (no pre-exit trap is handled) and then `wait4` fails with `EINVAL`
(22), the record of pid 100 has `tgid` 0 and no emitted element has pid 100.
Case (2): in the run where the main child 100 and its child 101 both reach
their pre-exit traps, the `status` file of 101 being missing at that moment,
the record of 101 has its `stop` stamped and `tgid` 0, and the only element
emitted is that of pid 100. -/
theorem record_with_unharvested_tgid_is_not_emitted_witness :
    (pids (procParentTrace 100 empty_state
        [sample_event 100 1407 10 11 0, failed_wait 22]).2.procs = [100] ∧
      ∀ r ∈ (procParentTrace 100 empty_state
          [sample_event 100 1407 10 11 0, failed_wait 22]).2.procs,
        r.tgid = 0 ∧
        ∀ el ∈ (printXMLProcInfo [] 2 (procParentTrace 100 empty_state
          [sample_event 100 1407 10 11 0, failed_wait 22]).2.procs).1, el.pid ≠ r.pid) ∧
    (pids (procParentTrace 100 empty_state
        [sample_event 100 1407 10 11 0, sample_event 101 4991 12 13 0,
          missing_status_event 101 394623 14 15 0, sample_event 100 394623 16 17 0,
          failed_wait ECHILD]).2.procs = [100, 101] ∧
      (procParentTrace 100 empty_state
        [sample_event 100 1407 10 11 0, sample_event 101 4991 12 13 0,
          missing_status_event 101 394623 14 15 0, sample_event 100 394623 16 17 0,
          failed_wait ECHILD]).2.stop_set = [101, 100] ∧
      ((printXMLProcInfo [] 2 (procParentTrace 100 empty_state
        [sample_event 100 1407 10 11 0, sample_event 101 4991 12 13 0,
          missing_status_event 101 394623 14 15 0, sample_event 100 394623 16 17 0,
          failed_wait ECHILD]).2.procs).1.map (fun el => el.pid)) = [100] ∧
      (∀ r ∈ (procParentTrace 100 empty_state
          [sample_event 100 1407 10 11 0, sample_event 101 4991 12 13 0,
            missing_status_event 101 394623 14 15 0, sample_event 100 394623 16 17 0,
            failed_wait ECHILD]).2.procs, r.pid = 101 → r.tgid = 0) ∧
      ∀ el ∈ (printXMLProcInfo [] 2 (procParentTrace 100 empty_state
          [sample_event 100 1407 10 11 0, sample_event 101 4991 12 13 0,
            missing_status_event 101 394623 14 15 0, sample_event 100 394623 16 17 0,
            failed_wait ECHILD]).2.procs).1, el.pid ≠ 101) := by
  refine ⟨⟨by decide, fun r hr => ?_⟩, by decide, by decide, by decide, ?_⟩
  · have hpid : r.pid = 100 := by
      have := mem_pids hr
      rw [show pids (procParentTrace 100 empty_state
          [sample_event 100 1407 10 11 0, failed_wait 22]).2.procs = [100] from by decide]
        at this
      simpa using this
    exact (record_with_unharvested_tgid_is_not_emitted).1 100 0 { words := [] }
      [sample_event 100 1407 10 11 0, failed_wait 22] 2 r hr (by rw [hpid]; decide)
      (by rw [hpid]; decide)
  · exact (record_with_unharvested_tgid_is_not_emitted).2.1 100 0 { words := [] }
      [sample_event 100 1407 10 11 0, sample_event 101 4991 12 13 0,
        missing_status_event 101 394623 14 15 0, sample_event 100 394623 16 17 0,
        failed_wait ECHILD] 2 101 (by decide) (by decide)

end Pegasus
